import Mathlib

/-!
Outpass management system: approval routing.

A shallow embedding of `BACKEND/database.js` and `BACKEND/outpassController.js`.

* The module-level object `database` becomes the record `Database`, threaded
  explicitly through every function that reads or writes it.
* JavaScript numbers that hold record ids are exact integers (`Int`); `NaN`
  (the only non-integer an id lookup can produce) is `none`.
* `Date` values are instants, written as an `Int` number of milliseconds.
  Every `new Date()` is a read of the clock; the values read are arguments.
* `outDate` and `inDate` are built by `new Date(string)` and may be an
  Invalid Date, which is `none`.
* A field that may be `undefined` is an `Option`.
* A handler returns the response it sent together with the database it left.
  An exception thrown inside a handler's `try` block is the `catch` branch:
  the 500 response, with the database as it was when the exception was thrown.
-/

set_option autoImplicit false

/-! ## Data model -/

/-- The audit entry stored in `approvedByMentor`, `approvedByWarden`, `rejectedBy`. -/
structure Decision where
  userId : String
  timestamp : Int
  remarks : Option String
deriving DecidableEq, Repr

/-- An element of `database.users`. -/
structure User where
  id : String
  name : String
  email : String
  password : String
  role : String
  studentName : Option String
  studentId : Option String
  contactNumber : Option String
  createdAt : Int
deriving DecidableEq, Repr

/-- An element of `database.outpasses`. -/
structure Outpass where
  id : Int
  studentName : String
  studentId : Option String
  guardianName : String
  guardianNumber : String
  outDate : Option Int
  inDate : Option Int
  reason : String
  isWeekday : Bool
  status : String
  createdBy : String
  createdAt : Int
  updatedAt : Int
  approvedByMentor : Option Decision
  approvedByWarden : Option Decision
  rejectedBy : Option Decision
deriving DecidableEq, Repr

/-- The in-memory `database` object of `database.js`. -/
structure Database where
  users : List User
  outpasses : List Outpass
  nextOutpassId : Int
deriving DecidableEq, Repr

/-- The object `req.user` set by the authentication middleware. -/
structure ReqUser where
  id : String
  role : String
deriving DecidableEq, Repr

/-- The two clock reads (`new Date()`) a mutating handler performs, in program order. -/
structure Clock where
  first : Int
  second : Int
deriving DecidableEq, Repr

/-! ## JavaScript built-ins used by the code -/

namespace JS

/-- Code points of `StrWhiteSpaceChar` (white space and line terminators). -/
def isWhiteSpace (c : Char) : Bool :=
  let n := c.toNat
  n == 9 || n == 10 || n == 11 || n == 12 || n == 13 || n == 32 || n == 160 ||
  n == 5760 || (8192 ≤ n && n ≤ 8202) || n == 8232 || n == 8233 || n == 8239 ||
  n == 8287 || n == 12288 || n == 65279

/-- The value of a character as a digit, when it is one in the given radix. -/
def digitValue (radix : Nat) (c : Char) : Option Nat :=
  let n := c.toNat
  let v : Option Nat :=
    if 48 ≤ n ∧ n ≤ 57 then some (n - 48)
    else if 97 ≤ n ∧ n ≤ 122 then some (n - 97 + 10)
    else if 65 ≤ n ∧ n ≤ 90 then some (n - 65 + 10)
    else none
  match v with
  | some d => if d < radix then some d else none
  | none => none

/-- The digits of the longest prefix made of digits of the radix. -/
def leadingDigits (radix : Nat) : List Char → List Nat
  | [] => []
  | c :: cs =>
    match digitValue radix c with
    | some d => d :: leadingDigits radix cs
    | none => []

/-- The sign prefix: the sign and the rest of the input. -/
def splitSign : List Char → Bool × List Char
  | '-' :: cs => (true, cs)
  | '+' :: cs => (false, cs)
  | cs => (false, cs)

/-- The radix prefix `0x` / `0X`: the radix and the rest of the input. -/
def splitRadix : List Char → Nat × List Char
  | '0' :: 'x' :: cs => (16, cs)
  | '0' :: 'X' :: cs => (16, cs)
  | cs => (10, cs)

/-- The built-in `parseInt(string)` with no radix argument; `none` is `NaN`. -/
def parseInt (s : String) : Option Int :=
  let (neg, afterSign) := splitSign (s.toList.dropWhile isWhiteSpace)
  let (radix, body) := splitRadix afterSign
  match leadingDigits radix body with
  | [] => none
  | ds =>
    let v : Nat := ds.foldl (fun acc d => acc * radix + d) 0
    some (if neg then -(v : Int) else (v : Int))

/-- The array method `findIndex`: the position of the first element that
satisfies the predicate; `none` is the result `-1`. -/
def findIndex {α : Type} (p : α → Bool) : List α → Option Nat
  | [] => none
  | a :: rest => if p a then some 0 else (findIndex p rest).map (fun i => i + 1)

/-- Insertion of `a` into a list sorted by `cmp`, in front of the first element
`b` that `a` may precede (`cmp a b ≤ 0`). -/
def insertSorted {α : Type} (cmp : α → α → Int) (a : α) : List α → List α
  | [] => [a]
  | b :: rest => if cmp a b ≤ 0 then a :: b :: rest else b :: insertSorted cmp a rest

/-- The array method `sort(cmp)`. The language requires the sort to be stable, so
for a comparator that is a consistent ordering the result is determined: it is
computed here by insertion from the right. -/
def sort {α : Type} (cmp : α → α → Int) : List α → List α
  | [] => []
  | a :: rest => insertSorted cmp a (sort cmp rest)

/-- Truthiness of a value that is either `undefined` or a string. -/
def truthy : Option String → Bool
  | none => false
  | some s => s != ""

/-- The expression `a || b` for `a` either `undefined` or a string and `b` a string. -/
def orElse (a : Option String) (b : String) : String :=
  match a with
  | none => b
  | some s => if s != "" then s else b

end JS

/-! ## database.js -/

namespace database

/-- The function `findUserById`: the first user whose `id` is the given one. -/
def findUserById (db : Database) (id : String) : Option User :=
  db.users.find? (fun user => user.id == id)

/-- The fields the controller passes to the database function `createOutpass`. -/
structure OutpassData where
  studentName : String
  studentId : Option String
  guardianName : String
  guardianNumber : String
  outDate : Option Int
  inDate : Option Int
  reason : String
  isWeekday : Bool
  status : String
  createdBy : String
deriving DecidableEq, Repr

/-- The function `createOutpass`: takes the id from the counter, increments the
counter, stamps both dates and pushes the record at the end of the list. -/
def createOutpass (db : Database) (clock : Clock) (outpassData : OutpassData) :
    Outpass × Database :=
  let outpass : Outpass :=
    { id := db.nextOutpassId
      studentName := outpassData.studentName
      studentId := outpassData.studentId
      guardianName := outpassData.guardianName
      guardianNumber := outpassData.guardianNumber
      outDate := outpassData.outDate
      inDate := outpassData.inDate
      reason := outpassData.reason
      isWeekday := outpassData.isWeekday
      status := outpassData.status
      createdBy := outpassData.createdBy
      createdAt := clock.first
      updatedAt := clock.second
      approvedByMentor := none
      approvedByWarden := none
      rejectedBy := none }
  (outpass, { db with outpasses := db.outpasses ++ [outpass],
                      nextOutpassId := db.nextOutpassId + 1 })

/-- The predicate of `find` / `findIndex`: `outpass.id === parseInt(id)`. -/
def idMatches (id : String) (outpass : Outpass) : Bool :=
  JS.parseInt id == some outpass.id

/-- The function `findOutpassById`. -/
def findOutpassById (db : Database) (id : String) : Option Outpass :=
  db.outpasses.find? (idMatches id)

/-- The object literal passed as `updates`: a key that is absent is `none`. -/
structure Updates where
  status : Option String
  approvedByMentor : Option Decision
  approvedByWarden : Option Decision
  rejectedBy : Option Decision
deriving DecidableEq, Repr

/-- The spread expression `{ ...outpass, ...updates, updatedAt: new Date() }`:
a key of `updates` replaces the key of the record, every other key is kept. -/
def applyUpdates (outpass : Outpass) (updates : Updates) (now : Int) : Outpass :=
  { outpass with
    status := updates.status.getD outpass.status
    approvedByMentor :=
      match updates.approvedByMentor with
      | some d => some d
      | none => outpass.approvedByMentor
    approvedByWarden :=
      match updates.approvedByWarden with
      | some d => some d
      | none => outpass.approvedByWarden
    rejectedBy :=
      match updates.rejectedBy with
      | some d => some d
      | none => outpass.rejectedBy
    updatedAt := now }

/-- The function `updateOutpass`: `none` is the `null` returned when no record has the id. -/
def updateOutpass (db : Database) (now : Int) (id : String) (updates : Updates) :
    Option Outpass × Database :=
  match JS.findIndex (idMatches id) db.outpasses with
  | some index =>
    match db.outpasses[index]? with  -- `findIndex` returns a position of the array
    | some current =>
      let updated := applyUpdates current updates now
      (some updated, { db with outpasses := db.outpasses.set index updated })
    | none => (none, db)
  | none => (none, db)

/-- The function `getOutpassesByUser`. -/
def getOutpassesByUser (db : Database) (userId : String) : List Outpass :=
  db.outpasses.filter (fun outpass => outpass.createdBy == userId)

/-- The function `getAllOutpasses`. -/
def getAllOutpasses (db : Database) : List Outpass :=
  db.outpasses

end database

/-! ## outpassController.js -/

/-- The exports of `utils/dateHelper`, a module that is not among the sources,
together with the built-in constructor `new Date(string)`; all four are parameters. -/
structure DateHelper where
  isWeekday : String → Bool
  isValidDate : String → Bool
  isValidDateRange : String → String → Bool
  newDate : String → Option Int

/-- The object `{ id, name, email }` that replaces `createdBy` in a response. -/
structure UserRef where
  id : String
  name : String
  email : String
deriving DecidableEq, Repr

/-- The object `{ id, name }` that replaces `userId` in a populated decision. -/
structure ApproverRef where
  id : String
  name : String
deriving DecidableEq, Repr

/-- A decision slot of a response after population. -/
structure PopulatedDecision where
  userId : ApproverRef
  timestamp : Int
  remarks : Option String
deriving DecidableEq, Repr

/-- What a response holds under a decision key: the stored value left by the
spread (`keep`), or the value the handler wrote over it. -/
inductive SlotView where
  | keep
  | null
  | ref (d : PopulatedDecision)
deriving DecidableEq, Repr

/-- The `data` object of a response: `{ ...outpass, createdBy: ..., ... }`. -/
structure Populated where
  outpass : Outpass
  createdBy : Option UserRef
  approvedByMentor : SlotView
  approvedByWarden : SlotView
  rejectedBy : SlotView
deriving DecidableEq, Repr

/-- What a handler sends: `res.status(status).json({ success, message, data })`.
The `error` text of the 500 response of `createOutpass` is left out. -/
structure Response where
  status : Nat
  success : Bool
  message : String
  data : Option Populated
deriving DecidableEq, Repr

/-- The fields read from `req.body` by `createOutpass`. -/
structure CreateBody where
  studentName : Option String
  studentId : Option String
  guardianName : Option String
  guardianNumber : Option String
  outDate : Option String
  inDate : Option String
  reason : Option String
deriving DecidableEq, Repr

/-- The object `{ id, name, email, studentName, studentId }` that replaces
`createdBy` in the pending queue. -/
structure PendingCreatorRef where
  id : String
  name : String
  email : String
  studentName : Option String
  studentId : Option String
deriving DecidableEq, Repr

/-- An element of the `data` array of `getPendingRequests`:
`{ ...outpass, createdBy: ..., approvedByMentor: ... }`. -/
structure PopulatedPending where
  outpass : Outpass
  createdBy : Option PendingCreatorRef
  approvedByMentor : SlotView
deriving DecidableEq, Repr

/-- What a list handler sends: `{ success, count, data }` with status 200, or
`{ success, message }` with no `count` and no `data`. -/
structure ListResponse (α : Type) where
  status : Nat
  success : Bool
  message : Option String
  count : Option Nat
  data : Option (List α)
deriving DecidableEq, Repr

/-- The object `stats` of `getStatistics`. -/
structure Statistics where
  total : Nat
  pending : Nat
  approved : Nat
  rejected : Nat
  mentor_approved : Nat
  warden_approved : Nat
deriving DecidableEq, Repr

/-- What `getStatistics` sends: `{ success, data: stats }`. -/
structure StatisticsResponse where
  status : Nat
  success : Bool
  data : Option Statistics
deriving DecidableEq, Repr

namespace outpassController

open database

/-- A response without data: `res.status(status).json({ success: false, message })`. -/
def failure (status : Nat) (message : String) : Response :=
  { status := status, success := false, message := message, data := none }

/-- The expression `creator ? { id, name, email } : null`. -/
def populateCreator (db : Database) (createdBy : String) : Option UserRef :=
  match findUserById db createdBy with
  | some creator => some { id := creator.id, name := creator.name, email := creator.email }
  | none => none

/-- The pair of expressions
`approver = slot ? findUserById(slot.userId) : null` and
`approver ? { userId: { id, name }, timestamp, remarks } : null`. -/
def populateDecision (db : Database) (slot : Option Decision) : SlotView :=
  match slot with
  | none => .null
  | some d =>
    match findUserById db d.userId with
    | some approver =>
      .ref { userId := { id := approver.id, name := approver.name }
             timestamp := d.timestamp, remarks := d.remarks }
    | none => .null

/-- The handler `createOutpass`. After the record is stored, `creator.id` is
read without a test: when `findUserById` finds no user the read throws and the
`catch` block answers 500. -/
def createOutpass (helper : DateHelper) (db : Database) (clock : Clock) (user : ReqUser)
    (body : CreateBody) : Response × Database :=
  if !JS.truthy body.studentName || !JS.truthy body.guardianName ||
      !JS.truthy body.guardianNumber || !JS.truthy body.outDate || !JS.truthy body.inDate then
    (failure 400 "Please provide all required fields", db)
  else
    -- past the test above the five values are non-empty strings
    let outDate := body.outDate.getD ""
    let inDate := body.inDate.getD ""
    if !helper.isValidDate outDate || !helper.isValidDate inDate then
      (failure 400 "Invalid date format", db)
    else if !helper.isValidDateRange outDate inDate then
      (failure 400 "In date must be after or equal to out date", db)
    else
      let weekdayStatus := helper.isWeekday outDate
      let (outpass, db1) := database.createOutpass db clock
        { studentName := body.studentName.getD ""
          studentId := body.studentId
          guardianName := body.guardianName.getD ""
          guardianNumber := body.guardianNumber.getD ""
          outDate := helper.newDate outDate
          inDate := helper.newDate inDate
          reason := JS.orElse body.reason "Personal"
          isWeekday := weekdayStatus
          status := "pending"
          createdBy := user.id }
      match findUserById db1 user.id with
      | some creator =>
        ({ status := 201
           success := true
           message := if weekdayStatus then "Request sent successfully. Awaiting mentor approval."
                      else "Request sent successfully to Warden."
           data := some { outpass := outpass
                          createdBy := some { id := creator.id, name := creator.name,
                                              email := creator.email }
                          approvedByMentor := .keep
                          approvedByWarden := .keep
                          rejectedBy := .keep } }, db1)
      | none => (failure 500 "Error creating outpass request", db1)

/-- The tail of `approveOutpass` after the call of `updateOutpass`: population of
the response. A `null` result of `updateOutpass` makes `updatedOutpass.createdBy`
throw, which the `catch` block answers with 500. -/
def approveRespond (result : Option Outpass × Database) : Response × Database :=
  match result with
  | (some updatedOutpass, db1) =>
    ({ status := 200
       success := true
       message := "Outpass approved successfully"
       data := some { outpass := updatedOutpass
                      createdBy := populateCreator db1 updatedOutpass.createdBy
                      approvedByMentor := populateDecision db1 updatedOutpass.approvedByMentor
                      approvedByWarden := populateDecision db1 updatedOutpass.approvedByWarden
                      rejectedBy := .keep } }, db1)
  | (none, db1) => (failure 500 "Error approving outpass", db1)

/-- The handler `approveOutpass`. `clock.first` is the `new Date()` of the
decision's `timestamp`, `clock.second` the one inside `updateOutpass`. -/
def approveOutpass (db : Database) (clock : Clock) (user : ReqUser) (id : String)
    (remarks : Option String) : Response × Database :=
  match findOutpassById db id with
  | none => (failure 404 "Outpass request not found", db)
  | some outpass =>
    if user.role == "mentor" then
      if outpass.status != "pending" || !outpass.isWeekday then
        (failure 400 "This request cannot be approved by mentor", db)
      else
        approveRespond (updateOutpass db clock.second id
          { status := some "mentor_approved"
            approvedByMentor :=
              some { userId := user.id, timestamp := clock.first, remarks := remarks }
            approvedByWarden := none
            rejectedBy := none })
    else if user.role == "warden" then
      if outpass.status == "warden_approved" || outpass.status == "rejected" then
        (failure 400 "This request has already been processed", db)
      else if outpass.isWeekday && outpass.status != "mentor_approved" then
        (failure 400 "Weekday requests must be approved by mentor first", db)
      else
        approveRespond (updateOutpass db clock.second id
          { status := some "warden_approved"
            approvedByMentor := none
            approvedByWarden :=
              some { userId := user.id, timestamp := clock.first, remarks := remarks }
            rejectedBy := none })
    else
      (failure 403 "Access denied", db)

/-- The tail of `rejectOutpass` after the call of `updateOutpass`. Both
`updatedOutpass.rejectedBy.userId` on a missing record or slot and `rejector.id`
on a user that `findUserById` did not find throw; the `catch` block answers 500. -/
def rejectRespond (result : Option Outpass × Database) : Response × Database :=
  match result with
  | (some updatedOutpass, db1) =>
    match updatedOutpass.rejectedBy with
    | some rejectedBy =>
      match findUserById db1 rejectedBy.userId with
      | some rejector =>
        ({ status := 200
           success := true
           message := "Outpass rejected"
           data := some { outpass := updatedOutpass
                          createdBy := populateCreator db1 updatedOutpass.createdBy
                          approvedByMentor := .keep
                          approvedByWarden := .keep
                          rejectedBy := .ref { userId := { id := rejector.id, name := rejector.name }
                                               timestamp := rejectedBy.timestamp
                                               remarks := rejectedBy.remarks } } }, db1)
      | none => (failure 500 "Error rejecting outpass", db1)
    | none => (failure 500 "Error rejecting outpass", db1)
  | (none, db1) => (failure 500 "Error rejecting outpass", db1)

/-- The handler `rejectOutpass`. -/
def rejectOutpass (db : Database) (clock : Clock) (user : ReqUser) (id : String)
    (remarks : Option String) : Response × Database :=
  if user.role != "mentor" && user.role != "warden" then
    (failure 403 "Access denied", db)
  else
    match findOutpassById db id with
    | none => (failure 404 "Outpass request not found", db)
    | some outpass =>
      if outpass.status == "warden_approved" || outpass.status == "rejected" then
        (failure 400 "This request has already been processed", db)
      else
        rejectRespond (updateOutpass db clock.second id
          { status := some "rejected"
            approvedByMentor := none
            approvedByWarden := none
            rejectedBy :=
              some { userId := user.id, timestamp := clock.first
                     remarks := some (JS.orElse remarks "No remarks provided") } })

/-- The callback of `map` in `getPendingRequests`. -/
def populatePending (db : Database) (outpass : Outpass) : PopulatedPending :=
  { outpass := outpass
    createdBy :=
      match findUserById db outpass.createdBy with
      | some creator =>
        some { id := creator.id, name := creator.name, email := creator.email
               studentName := creator.studentName, studentId := creator.studentId }
      | none => none
    approvedByMentor := populateDecision db outpass.approvedByMentor }

/-- The tail of `getPendingRequests` after the role test: population, the sort
`(a, b) => new Date(b.createdAt) - new Date(a.createdAt)` and the 200 response. -/
def pendingRespond (db : Database) (outpasses : List Outpass) :
    ListResponse PopulatedPending × Database :=
  let populatedOutpasses :=
    JS.sort (fun a b : PopulatedPending => b.outpass.createdAt - a.outpass.createdAt)
      (outpasses.map (populatePending db))
  ({ status := 200, success := true, message := none
     count := some populatedOutpasses.length, data := some populatedOutpasses }, db)

/-- The handler `getPendingRequests`. -/
def getPendingRequests (db : Database) (user : ReqUser) :
    ListResponse PopulatedPending × Database :=
  let outpasses := getAllOutpasses db
  if user.role == "mentor" then
    pendingRespond db (outpasses.filter (fun op => op.status == "pending" && op.isWeekday))
  else if user.role == "warden" then
    pendingRespond db (outpasses.filter (fun op =>
      (op.status == "pending" && !op.isWeekday) || op.status == "mentor_approved"))
  else
    ({ status := 403, success := false, message := some "Access denied"
       count := none, data := none }, db)

/-- The callback of `map` in `getHistory`. -/
def populateHistory (db : Database) (outpass : Outpass) : Populated :=
  { outpass := outpass
    createdBy := populateCreator db outpass.createdBy
    approvedByMentor := populateDecision db outpass.approvedByMentor
    approvedByWarden := populateDecision db outpass.approvedByWarden
    rejectedBy := populateDecision db outpass.rejectedBy }

/-- The first statement of `getHistory`: the records the role may see. -/
def historyScope (db : Database) (user : ReqUser) : List Outpass :=
  if user.role == "parent" then getOutpassesByUser db user.id
  else if user.role == "mentor" || user.role == "warden" || user.role == "admin" then
    getAllOutpasses db
  else []

/-- The handler `getHistory`. -/
def getHistory (db : Database) (user : ReqUser) : ListResponse Populated × Database :=
  let outpasses := historyScope db user
  let populatedOutpasses :=
    JS.sort (fun a b : Populated => b.outpass.createdAt - a.outpass.createdAt)
      (outpasses.map (populateHistory db))
  ({ status := 200, success := true, message := none
     count := some populatedOutpasses.length, data := some populatedOutpasses }, db)

/-- The first statement of `getStatistics`: the records the counts range over. -/
def statisticsScope (db : Database) (user : ReqUser) : List Outpass :=
  if user.role == "parent" then getOutpassesByUser db user.id else getAllOutpasses db

/-- The handler `getStatistics`. -/
def getStatistics (db : Database) (user : ReqUser) : StatisticsResponse × Database :=
  let outpasses := statisticsScope db user
  let stats : Statistics :=
    { total := outpasses.length
      pending := (outpasses.filter (fun op => op.status == "pending")).length
      approved := (outpasses.filter (fun op =>
        op.status == "mentor_approved" || op.status == "warden_approved")).length
      rejected := (outpasses.filter (fun op => op.status == "rejected")).length
      mentor_approved := (outpasses.filter (fun op => op.status == "mentor_approved")).length
      warden_approved := (outpasses.filter (fun op => op.status == "warden_approved")).length }
  ({ status := 200, success := true, data := some stats }, db)

end outpassController

/-! ## Vocabulary of the properties -/

/-- The record the mentor branch of `approveOutpass` writes over `o`. -/
def mentorApproved (o : Outpass) (user : ReqUser) (clock : Clock) (remarks : Option String) :
    Outpass :=
  { o with
    status := "mentor_approved"
    approvedByMentor := some { userId := user.id, timestamp := clock.first, remarks := remarks }
    updatedAt := clock.second }

/-- The record the warden branch of `approveOutpass` writes over `o`. -/
def wardenApproved (o : Outpass) (user : ReqUser) (clock : Clock) (remarks : Option String) :
    Outpass :=
  { o with
    status := "warden_approved"
    approvedByWarden := some { userId := user.id, timestamp := clock.first, remarks := remarks }
    updatedAt := clock.second }

/-- The record `rejectOutpass` writes over `o`. -/
def rejected (o : Outpass) (user : ReqUser) (clock : Clock) (remarks : Option String) :
    Outpass :=
  { o with
    status := "rejected"
    rejectedBy := some { userId := user.id, timestamp := clock.first
                         remarks := some (JS.orElse remarks "No remarks provided") }
    updatedAt := clock.second }

/-- The writes the handlers perform on a record `o`, each under the guards of its
branch: `Written user clock remarks o o1` says that a call by `user` replaces `o` by `o1`. -/
inductive Written (user : ReqUser) (clock : Clock) (remarks : Option String) (o : Outpass) :
    Outpass → Prop where
  | byMentor : user.role = "mentor" → o.status = "pending" → o.isWeekday = true →
      Written user clock remarks o (mentorApproved o user clock remarks)
  | byWarden : user.role = "warden" → o.status ≠ "warden_approved" → o.status ≠ "rejected" →
      (o.isWeekday = true → o.status = "mentor_approved") →
      Written user clock remarks o (wardenApproved o user clock remarks)
  | byReject : (user.role = "mentor" ∨ user.role = "warden") →
      o.status ≠ "warden_approved" → o.status ≠ "rejected" →
      Written user clock remarks o (rejected o user clock remarks)

/-- The four values the code ever writes into `status`. -/
def IsStatus (s : String) : Prop :=
  s = "pending" ∨ s = "mentor_approved" ∨ s = "warden_approved" ∨ s = "rejected"

/-- A status pair that is unchanged or one of the five forward moves. -/
def StatusStep (old new : String) : Prop :=
  old = new ∨
  (old = "pending" ∧ new = "mentor_approved") ∨
  (old = "mentor_approved" ∧ new = "warden_approved") ∨
  (old = "pending" ∧ new = "warden_approved") ∨
  (old = "pending" ∧ new = "rejected") ∨
  (old = "mentor_approved" ∧ new = "rejected")

/-- Every decision slot that is set on `o` has the same value on `o1`. -/
def SlotsKept (o o1 : Outpass) : Prop :=
  (o.approvedByMentor.isSome → o1.approvedByMentor = o.approvedByMentor) ∧
  (o.approvedByWarden.isSome → o1.approvedByWarden = o.approvedByWarden) ∧
  (o.rejectedBy.isSome → o1.rejectedBy = o.rejectedBy)

/-- The fields a transition never writes are equal on `o` and `o1`. -/
def SameCreationFields (o o1 : Outpass) : Prop :=
  o1.id = o.id ∧ o1.isWeekday = o.isWeekday ∧ o1.outDate = o.outDate ∧ o1.inDate = o.inDate ∧
  o1.studentName = o.studentName ∧ o1.studentId = o.studentId ∧
  o1.guardianName = o.guardianName ∧ o1.guardianNumber = o.guardianNumber ∧
  o1.reason = o.reason ∧ o1.createdBy = o.createdBy ∧ o1.createdAt = o.createdAt

/-- At least two of the three decision slots are equal on `o` and `o1`. -/
def AtMostOneSlotDiffers (o o1 : Outpass) : Prop :=
  (o1.approvedByWarden = o.approvedByWarden ∧ o1.rejectedBy = o.rejectedBy) ∨
  (o1.approvedByMentor = o.approvedByMentor ∧ o1.rejectedBy = o.rejectedBy) ∨
  (o1.approvedByMentor = o.approvedByMentor ∧ o1.approvedByWarden = o.approvedByWarden)

/-- The frame of a call on request `id` that took `db` to `db1`: users and counter
are untouched, and the record list is either untouched or differs exactly at the
position of the first record with the id, where the creation fields are kept and
at most one decision slot differs. -/
def TransitionFrame (db : Database) (id : String) (db1 : Database) : Prop :=
  db1.users = db.users ∧ db1.nextOutpassId = db.nextOutpassId ∧
  (db1.outpasses = db.outpasses ∨
    ∃ pre o post o1, db.outpasses = pre ++ o :: post ∧ db1.outpasses = pre ++ o1 :: post ∧
      (∀ x ∈ pre, database.idMatches id x = false) ∧ database.idMatches id o = true ∧
      SameCreationFields o o1 ∧ AtMostOneSlotDiffers o o1)

/-- The relation of C5 between a record before and after a call. -/
def MovesForward (o o1 : Outpass) : Prop :=
  StatusStep o.status o1.status ∧
  ((o.status = "warden_approved" ∨ o.status = "rejected") → o1.status = o.status)

/-- The databases the three mutating handlers can produce, starting from no
record and the counter at 1 (with any users table). -/
inductive Reachable (helper : DateHelper) : Database → Prop where
  | init (users : List User) :
      Reachable helper { users := users, outpasses := [], nextOutpassId := 1 }
  | create {db : Database} (clock : Clock) (user : ReqUser) (body : CreateBody) :
      Reachable helper db →
      Reachable helper (outpassController.createOutpass helper db clock user body).2
  | approve {db : Database} (clock : Clock) (user : ReqUser) (id : String)
      (remarks : Option String) :
      Reachable helper db →
      Reachable helper (outpassController.approveOutpass db clock user id remarks).2
  | reject {db : Database} (clock : Clock) (user : ReqUser) (id : String)
      (remarks : Option String) :
      Reachable helper db →
      Reachable helper (outpassController.rejectOutpass db clock user id remarks).2

/-- What the state of a record says about its decision slots: a slot that is set
fixes the status. -/
def SlotsAgreeWithStatus (o : Outpass) : Prop :=
  (o.approvedByMentor.isSome → o.status ≠ "pending") ∧
  (o.approvedByWarden.isSome → o.status = "warden_approved") ∧
  (o.rejectedBy.isSome → o.status = "rejected")

/-- The list `out` is the list `sel` most recent first: a permutation of `sel`
whose `createdAt` never increases from one record to a later one, and in which
the records of any one `createdAt` stand in the order they have in `sel`. -/
def MostRecentFirst (sel out : List Outpass) : Prop :=
  out.Perm sel ∧
  out.Pairwise (fun a b => b.createdAt ≤ a.createdAt) ∧
  ∀ t : Int, out.filter (fun o => o.createdAt == t) = sel.filter (fun o => o.createdAt == t)

/-- The records a list response carries, unpopulated; none when there is no `data`. -/
def returnedHistory (r : ListResponse Populated) : List Outpass :=
  (r.data.getD []).map (fun p => p.outpass)

/-- The records the pending queue carries, unpopulated; none when there is no `data`. -/
def returnedPending (r : ListResponse PopulatedPending) : List Outpass :=
  (r.data.getD []).map (fun p => p.outpass)

/-- A request body that one of the three validation steps of `createOutpass`
refuses: a required field missing or empty, a date the validity check refuses,
or a pair of dates the range check refuses. -/
def FailsValidation (helper : DateHelper) (body : CreateBody) : Prop :=
  JS.truthy body.studentName = false ∨ JS.truthy body.guardianName = false ∨
  JS.truthy body.guardianNumber = false ∨ JS.truthy body.outDate = false ∨
  JS.truthy body.inDate = false ∨
  (∃ d, body.outDate = some d ∧ helper.isValidDate d = false) ∨
  (∃ d, body.inDate = some d ∧ helper.isValidDate d = false) ∨
  (∃ d1 d2, body.outDate = some d1 ∧ body.inDate = some d2 ∧
    helper.isValidDateRange d1 d2 = false)

/-- A request body that passes the three validation steps of `createOutpass`,
with its five required values. -/
def PassesValidation (helper : DateHelper) (body : CreateBody)
    (studentName guardianName guardianNumber outDate inDate : String) : Prop :=
  body.studentName = some studentName ∧ studentName ≠ "" ∧
  body.guardianName = some guardianName ∧ guardianName ≠ "" ∧
  body.guardianNumber = some guardianNumber ∧ guardianNumber ≠ "" ∧
  body.outDate = some outDate ∧ outDate ≠ "" ∧
  body.inDate = some inDate ∧ inDate ≠ "" ∧
  helper.isValidDate outDate = true ∧ helper.isValidDate inDate = true ∧
  helper.isValidDateRange outDate inDate = true

/-- The agreement of status and audit trail on one record. -/
def StatusMatchesSlots (o : Outpass) : Prop :=
  (o.status = "pending" →
    o.approvedByMentor = none ∧ o.approvedByWarden = none ∧ o.rejectedBy = none) ∧
  (o.status = "mentor_approved" → o.isWeekday = true ∧ o.approvedByMentor.isSome) ∧
  (o.status = "warden_approved" →
    o.approvedByWarden.isSome ∧ (o.approvedByMentor.isSome ↔ o.isWeekday = true)) ∧
  (o.status = "rejected" → o.rejectedBy.isSome) ∧
  IsStatus o.status

/-- The ids of the records, in insertion order. -/
def recordIds (db : Database) : List Int :=
  db.outpasses.map (fun o => o.id)

/-- Ids strictly increasing in insertion order, all below the counter. -/
def IdsIncreasing (db : Database) : Prop :=
  (recordIds db).Pairwise (fun a b => a < b) ∧ ∀ i ∈ recordIds db, i < db.nextOutpassId

/-! ## Sample data -/

/-- The four users `database.js` starts with (creation instant 0). -/
def seedUsers : List User :=
  [ { id := "1", name := "Admin User", email := "admin@college.com", password := "", role := "admin",
      studentName := none, studentId := none, contactNumber := none, createdAt := 0 },
    { id := "2", name := "John Mentor", email := "mentor@college.com", password := "", role := "mentor",
      studentName := none, studentId := none, contactNumber := none, createdAt := 0 },
    { id := "3", name := "Jane Warden", email := "warden@college.com", password := "", role := "warden",
      studentName := none, studentId := none, contactNumber := none, createdAt := 0 },
    { id := "4", name := "Parent User", email := "parent@example.com", password := "", role := "parent",
      studentName := some "Student Name", studentId := some "STU001",
      contactNumber := some "9876543210", createdAt := 0 } ]

/-- A record with id 1 created by the seeded parent, with the given day type and status. -/
def sampleOutpass (isWeekday : Bool) (status : String) : Outpass :=
  { id := 1, studentName := "Student Name", studentId := some "STU001",
    guardianName := "Parent User", guardianNumber := "9876543210",
    outDate := some 100, inDate := some 200, reason := "Personal",
    isWeekday := isWeekday, status := status, createdBy := "4",
    createdAt := 10, updatedAt := 10,
    approvedByMentor := none, approvedByWarden := none, rejectedBy := none }

/-- The seeded database holding the single record `sampleOutpass isWeekday status`. -/
def sampleDb (isWeekday : Bool) (status : String) : Database :=
  { users := seedUsers, outpasses := [sampleOutpass isWeekday status], nextOutpassId := 2 }

/-- The seeded mentor, as the authentication middleware presents it. -/
def sampleMentor : ReqUser := { id := "2", role := "mentor" }

/-- The seeded warden. -/
def sampleWarden : ReqUser := { id := "3", role := "warden" }

/-- The seeded parent. -/
def sampleParent : ReqUser := { id := "4", role := "parent" }

/-- A mentor whose id is in no users table of this file. -/
def unknownMentor : ReqUser := { id := "ghost", role := "mentor" }

/-- Clock reads 20 and 21. -/
def sampleClock : Clock := { first := 20, second := 21 }


/-- A date helper that accepts every date and classifies every day as a weekday. -/
def sampleHelper : DateHelper :=
  { isWeekday := fun _ => true
    isValidDate := fun _ => true
    isValidDateRange := fun _ _ => true
    newDate := fun _ => some 0 }

/-- A complete request body. -/
def sampleBody : CreateBody :=
  { studentName := some "Student Name", studentId := some "STU001",
    guardianName := some "Parent User", guardianNumber := some "9876543210",
    outDate := some "2024-01-01", inDate := some "2024-01-02", reason := none }

/-- The database `database.js` starts with. -/
def initialDb : Database := { users := seedUsers, outpasses := [], nextOutpassId := 1 }

/-- The initial database after the seeded parent submitted `sampleBody` and the
seeded mentor approved the resulting record 1. -/
def afterMentorApproval : Database :=
  (outpassController.approveOutpass
    (outpassController.createOutpass sampleHelper initialDb sampleClock sampleParent sampleBody).2
    sampleClock sampleMentor "1" (some "ok")).2

/-- A record with no decision slot, with the given id, day type, status,
creator and creation instant. -/
def sampleRecord (id : Int) (isWeekday : Bool) (status : String) (createdBy : String)
    (createdAt : Int) : Outpass :=
  { id := id, studentName := "Student Name", studentId := some "STU001",
    guardianName := "Parent User", guardianNumber := "9876543210",
    outDate := some 100, inDate := some 200, reason := "Personal",
    isWeekday := isWeekday, status := status, createdBy := createdBy,
    createdAt := createdAt, updatedAt := createdAt,
    approvedByMentor := none, approvedByWarden := none, rejectedBy := none }

/-- Four records of two creators; records 2 and 3 have the same creation instant. -/
def queueDb : Database :=
  { users := seedUsers
    outpasses :=
      [ sampleRecord 1 true "pending" "4" 10,
        sampleRecord 2 false "pending" "5" 30,
        sampleRecord 3 true "mentor_approved" "4" 30,
        sampleRecord 4 true "rejected" "4" 20 ]
    nextOutpassId := 5 }

/-- Ten records: three pending, two approved by the mentor, two by the warden,
three rejected. -/
def statisticsDb : Database :=
  { users := seedUsers
    outpasses :=
      [ sampleRecord 1 true "pending" "4" 1,
        sampleRecord 2 true "mentor_approved" "4" 2,
        sampleRecord 3 false "warden_approved" "4" 3,
        sampleRecord 4 true "rejected" "4" 4,
        sampleRecord 5 false "pending" "4" 5,
        sampleRecord 6 true "mentor_approved" "4" 6,
        sampleRecord 7 true "warden_approved" "4" 7,
        sampleRecord 8 false "rejected" "4" 8,
        sampleRecord 9 true "pending" "4" 9,
        sampleRecord 10 true "rejected" "4" 10 ]
    nextOutpassId := 11 }

/-- The seeded admin. -/
def sampleAdmin : ReqUser := { id := "1", role := "admin" }

/-- A parent whose id is in no users table of this file. -/
def unknownParent : ReqUser := { id := "ghost", role := "parent" }

/-- The request body `sampleBody` with an empty `reason`, as a form sends a field left blank. -/
def blankReasonBody : CreateBody := { sampleBody with reason := some "" }

/-! ## Lemmas on lookup and update -/

namespace JS

theorem findIndex_append_of_first {α : Type} (p : α → Bool) (pre : List α) (a : α)
    (post : List α) (hpre : ∀ x ∈ pre, p x = false) (ha : p a = true) :
    findIndex p (pre ++ a :: post) = some pre.length := by
  induction pre with
  | nil => simp [findIndex, ha]
  | cons b rest ih =>
    have hb : p b = false := hpre b (List.mem_cons_self b rest)
    have hrest : ∀ x ∈ rest, p x = false := fun x hx => hpre x (List.mem_cons_of_mem b hx)
    simp [findIndex, hb, ih hrest]

theorem findIndex_eq_none_of_find {α : Type} (p : α → Bool) (l : List α)
    (h : l.find? p = none) : findIndex p l = none := by
  induction l with
  | nil => rfl
  | cons b rest ih =>
    rw [List.find?_cons] at h
    cases hb : p b with
    | true => simp [hb] at h
    | false =>
      simp only [hb] at h
      simp [findIndex, hb, ih h]

end JS

namespace database

/-- A successful lookup splits the list at the first record with the id. -/
theorem findOutpassById_split {db : Database} {id : String} {o : Outpass}
    (h : findOutpassById db id = some o) :
    ∃ pre post, db.outpasses = pre ++ o :: post ∧
      (∀ x ∈ pre, idMatches id x = false) ∧ idMatches id o = true := by
  unfold findOutpassById at h
  obtain ⟨ho, pre, post, hsplit, hpre⟩ := List.find?_eq_some.mp h
  refine ⟨pre, post, hsplit, ?_, ho⟩
  intro x hx
  simpa using hpre x hx

/-- The lookup in a list split at its first matching record. -/
theorem find_of_split (id : String) (pre : List Outpass) (o : Outpass) (post : List Outpass)
    (hpre : ∀ x ∈ pre, idMatches id x = false) (ho : idMatches id o = true) :
    (pre ++ o :: post).find? (idMatches id) = some o := by
  induction pre with
  | nil => simp [ho]
  | cons b rest ih =>
    have hb : idMatches id b = false := hpre b (List.mem_cons_self b rest)
    have hrest : ∀ x ∈ rest, idMatches id x = false :=
      fun x hx => hpre x (List.mem_cons_of_mem b hx)
    simp [hb, ih hrest]

/-- The record written by `updateOutpass` keeps its id. -/
theorem applyUpdates_id (o : Outpass) (u : Updates) (now : Int) :
    (applyUpdates o u now).id = o.id := rfl

theorem idMatches_applyUpdates (id : String) (o : Outpass) (u : Updates) (now : Int) :
    idMatches id (applyUpdates o u now) = idMatches id o := rfl

/-- The function `updateOutpass` on a database whose list is split at the
first record with the id: that record, and only it, is replaced. -/
theorem updateOutpass_split (db : Database) (now : Int) (id : String) (u : Updates)
    (pre : List Outpass) (o : Outpass) (post : List Outpass)
    (hsplit : db.outpasses = pre ++ o :: post)
    (hpre : ∀ x ∈ pre, idMatches id x = false) (ho : idMatches id o = true) :
    updateOutpass db now id u =
      (some (applyUpdates o u now),
       { db with outpasses := pre ++ applyUpdates o u now :: post }) := by
  unfold updateOutpass
  have hget : (pre ++ o :: post)[pre.length]? = some o := by
    rw [List.getElem?_append_right (Nat.le_refl _)]
    simp
  rw [hsplit, JS.findIndex_append_of_first _ pre o post hpre ho]
  simp only [hget]
  simp

/-- The function `updateOutpass` when no record has the id. -/
theorem updateOutpass_none (db : Database) (now : Int) (id : String) (u : Updates)
    (h : findOutpassById db id = none) : updateOutpass db now id u = (none, db) := by
  unfold updateOutpass
  rw [JS.findIndex_eq_none_of_find _ _ h]

end database

/-! ## Approval by the mentor and by the warden -/

namespace outpassController

open database

/-- The mentor branch of `approveOutpass` past its guard. -/
theorem approveOutpass_mentor_pass (db : Database) (clock : Clock) (user : ReqUser)
    (id : String) (remarks : Option String) (o : Outpass)
    (hrole : user.role = "mentor") (hfind : findOutpassById db id = some o)
    (hstatus : o.status = "pending") (hday : o.isWeekday = true) :
    approveOutpass db clock user id remarks =
      approveRespond (updateOutpass db clock.second id
        { status := some "mentor_approved"
          approvedByMentor :=
            some { userId := user.id, timestamp := clock.first, remarks := remarks }
          approvedByWarden := none
          rejectedBy := none }) := by
  unfold approveOutpass
  simp [hfind, hrole, hstatus, hday]

/-- The mentor branch of `approveOutpass` stopped by its guard. -/
theorem approveOutpass_mentor_stop (db : Database) (clock : Clock) (user : ReqUser)
    (id : String) (remarks : Option String) (o : Outpass)
    (hrole : user.role = "mentor") (hfind : findOutpassById db id = some o)
    (hno : ¬ (o.status = "pending" ∧ o.isWeekday = true)) :
    approveOutpass db clock user id remarks =
      (failure 400 "This request cannot be approved by mentor", db) := by
  unfold approveOutpass
  simp only [hfind, hrole]
  by_cases hs : o.status = "pending"
  · have hd : o.isWeekday = false := by
      cases h : o.isWeekday with
      | false => rfl
      | true => exact absurd ⟨hs, h⟩ hno
    simp [hs, hd]
  · simp [hs]

/-- The warden branch of `approveOutpass` past its two guards. -/
theorem approveOutpass_warden_pass (db : Database) (clock : Clock) (user : ReqUser)
    (id : String) (remarks : Option String) (o : Outpass)
    (hrole : user.role = "warden") (hfind : findOutpassById db id = some o)
    (h1 : o.status ≠ "warden_approved") (h2 : o.status ≠ "rejected")
    (h3 : o.isWeekday = true → o.status = "mentor_approved") :
    approveOutpass db clock user id remarks =
      approveRespond (updateOutpass db clock.second id
        { status := some "warden_approved"
          approvedByMentor := none
          approvedByWarden :=
            some { userId := user.id, timestamp := clock.first, remarks := remarks }
          rejectedBy := none }) := by
  unfold approveOutpass
  have hne : ¬ ("warden" = "mentor") := by decide
  cases hd : o.isWeekday with
  | false => simp [hfind, hrole, hne, h1, h2, hd]
  | true => simp [hfind, hrole, hne, h1, h2, hd, h3 hd]

/-- The warden branch of `approveOutpass` stopped by one of its guards. -/
theorem approveOutpass_warden_stop (db : Database) (clock : Clock) (user : ReqUser)
    (id : String) (remarks : Option String) (o : Outpass)
    (hrole : user.role = "warden") (hfind : findOutpassById db id = some o)
    (hno : o.status = "warden_approved" ∨ o.status = "rejected" ∨
      (o.isWeekday = true ∧ o.status ≠ "mentor_approved")) :
    (approveOutpass db clock user id remarks).1.status = 400 ∧
    (approveOutpass db clock user id remarks).2 = db := by
  unfold approveOutpass
  have hne : ¬ ("warden" = "mentor") := by decide
  simp only [hfind, hrole]
  by_cases h1 : o.status = "warden_approved"
  · simp [hne, h1, failure]
  · by_cases h2 : o.status = "rejected"
    · simp [hne, h2, failure]
    · rcases hno with h | h | ⟨hd, hs⟩
      · exact absurd h h1
      · exact absurd h h2
      · simp [hne, h1, h2, hd, hs, failure]

/-- A role that is neither mentor nor warden is refused by `approveOutpass`
once the record is found. -/
theorem approveOutpass_other_role (db : Database) (clock : Clock) (user : ReqUser)
    (id : String) (remarks : Option String) (o : Outpass)
    (hm : user.role ≠ "mentor") (hw : user.role ≠ "warden")
    (hfind : findOutpassById db id = some o) :
    approveOutpass db clock user id remarks = (failure 403 "Access denied", db) := by
  unfold approveOutpass
  simp [hfind, hm, hw]

/-- An unknown id is answered 404 by `approveOutpass`, whatever the role. -/
theorem approveOutpass_unknown (db : Database) (clock : Clock) (user : ReqUser)
    (id : String) (remarks : Option String) (hfind : findOutpassById db id = none) :
    approveOutpass db clock user id remarks =
      (failure 404 "Outpass request not found", db) := by
  unfold approveOutpass
  simp [hfind]

/-- The response after a successful update in `approveOutpass`. -/
theorem approveRespond_some (o1 : Outpass) (db1 : Database) :
    (approveRespond (some o1, db1)).1.status = 200 ∧ (approveRespond (some o1, db1)).2 = db1 := by
  simp [approveRespond]

/-- The response after an update in `rejectOutpass`: 200 when the acting user is
in the users table, 500 when not; the database is the updated one in both cases. -/
theorem rejectRespond_rejected (o : Outpass) (user : ReqUser) (clock : Clock)
    (remarks : Option String) (db1 : Database) :
    (rejectRespond (some (rejected o user clock remarks), db1)).2 = db1 ∧
    ((findUserById db1 user.id).isSome →
      (rejectRespond (some (rejected o user clock remarks), db1)).1.status = 200) ∧
    (findUserById db1 user.id = none →
      (rejectRespond (some (rejected o user clock remarks), db1)).1.status = 500) := by
  cases hu : findUserById db1 user.id with
  | none => simp [rejectRespond, rejected, hu, failure]
  | some u => simp [rejectRespond, rejected, hu]

/-- The body of `rejectOutpass` past its three guards. -/
theorem rejectOutpass_pass (db : Database) (clock : Clock) (user : ReqUser)
    (id : String) (remarks : Option String) (o : Outpass)
    (hrole : user.role = "mentor" ∨ user.role = "warden")
    (hfind : findOutpassById db id = some o)
    (h1 : o.status ≠ "warden_approved") (h2 : o.status ≠ "rejected") :
    rejectOutpass db clock user id remarks =
      rejectRespond (updateOutpass db clock.second id
        { status := some "rejected"
          approvedByMentor := none
          approvedByWarden := none
          rejectedBy :=
            some { userId := user.id, timestamp := clock.first
                   remarks := some (JS.orElse remarks "No remarks provided") } }) := by
  unfold rejectOutpass
  rcases hrole with hr | hr <;> simp [hr, hfind, h1, h2]

/-- A record in a terminal status stops `rejectOutpass`. -/
theorem rejectOutpass_terminal (db : Database) (clock : Clock) (user : ReqUser)
    (id : String) (remarks : Option String) (o : Outpass)
    (hrole : user.role = "mentor" ∨ user.role = "warden")
    (hfind : findOutpassById db id = some o)
    (hterm : o.status = "warden_approved" ∨ o.status = "rejected") :
    rejectOutpass db clock user id remarks =
      (failure 400 "This request has already been processed", db) := by
  unfold rejectOutpass
  rcases hrole with hr | hr <;> rcases hterm with ht | ht <;> simp [hr, hfind, ht]

/-- An unknown id is answered 404 by `rejectOutpass` for a mentor or a warden. -/
theorem rejectOutpass_unknown (db : Database) (clock : Clock) (user : ReqUser)
    (id : String) (remarks : Option String)
    (hrole : user.role = "mentor" ∨ user.role = "warden")
    (hfind : findOutpassById db id = none) :
    rejectOutpass db clock user id remarks =
      (failure 404 "Outpass request not found", db) := by
  unfold rejectOutpass
  rcases hrole with hr | hr <;> simp [hr, hfind]

/-- Any other role is answered 403 by `rejectOutpass` before the lookup. -/
theorem rejectOutpass_other_role (db : Database) (clock : Clock) (user : ReqUser)
    (id : String) (remarks : Option String)
    (hm : user.role ≠ "mentor") (hw : user.role ≠ "warden") :
    rejectOutpass db clock user id remarks = (failure 403 "Access denied", db) := by
  unfold rejectOutpass
  simp [hm, hw]

/-- The mentor's approval, as a whole: response 200 and the first record with
the id replaced by `mentorApproved`. -/
theorem approveOutpass_mentor_result (db : Database) (clock : Clock) (user : ReqUser)
    (id : String) (remarks : Option String) (pre : List Outpass) (o : Outpass)
    (post : List Outpass) (hsplit : db.outpasses = pre ++ o :: post)
    (hpre : ∀ x ∈ pre, idMatches id x = false) (ho : idMatches id o = true)
    (hrole : user.role = "mentor") (hstatus : o.status = "pending")
    (hday : o.isWeekday = true) :
    (approveOutpass db clock user id remarks).1.status = 200 ∧
    (approveOutpass db clock user id remarks).2 =
      { db with outpasses := pre ++ mentorApproved o user clock remarks :: post } := by
  have hfind : findOutpassById db id = some o := by
    unfold findOutpassById
    rw [hsplit]
    exact find_of_split id pre o post hpre ho
  rw [approveOutpass_mentor_pass db clock user id remarks o hrole hfind hstatus hday,
    updateOutpass_split db clock.second id _ pre o post hsplit hpre ho]
  exact approveRespond_some _ _

/-- The warden's approval, as a whole: response 200 and the first record with
the id replaced by `wardenApproved`. -/
theorem approveOutpass_warden_result (db : Database) (clock : Clock) (user : ReqUser)
    (id : String) (remarks : Option String) (pre : List Outpass) (o : Outpass)
    (post : List Outpass) (hsplit : db.outpasses = pre ++ o :: post)
    (hpre : ∀ x ∈ pre, idMatches id x = false) (ho : idMatches id o = true)
    (hrole : user.role = "warden")
    (h1 : o.status ≠ "warden_approved") (h2 : o.status ≠ "rejected")
    (h3 : o.isWeekday = true → o.status = "mentor_approved") :
    (approveOutpass db clock user id remarks).1.status = 200 ∧
    (approveOutpass db clock user id remarks).2 =
      { db with outpasses := pre ++ wardenApproved o user clock remarks :: post } := by
  have hfind : findOutpassById db id = some o := by
    unfold findOutpassById
    rw [hsplit]
    exact find_of_split id pre o post hpre ho
  rw [approveOutpass_warden_pass db clock user id remarks o hrole hfind h1 h2 h3,
    updateOutpass_split db clock.second id _ pre o post hsplit hpre ho]
  exact approveRespond_some _ _

/-- A rejection that passes the guards, as a whole: the first record with the id
is replaced by `rejected`; the response is 200 when the acting user is in the
users table and 500 when not. -/
theorem rejectOutpass_result (db : Database) (clock : Clock) (user : ReqUser)
    (id : String) (remarks : Option String) (pre : List Outpass) (o : Outpass)
    (post : List Outpass) (hsplit : db.outpasses = pre ++ o :: post)
    (hpre : ∀ x ∈ pre, idMatches id x = false) (ho : idMatches id o = true)
    (hrole : user.role = "mentor" ∨ user.role = "warden")
    (h1 : o.status ≠ "warden_approved") (h2 : o.status ≠ "rejected") :
    (rejectOutpass db clock user id remarks).2 =
      { db with outpasses := pre ++ rejected o user clock remarks :: post } ∧
    ((findUserById db user.id).isSome → (rejectOutpass db clock user id remarks).1.status = 200) ∧
    (findUserById db user.id = none → (rejectOutpass db clock user id remarks).1.status = 500) := by
  have hfind : findOutpassById db id = some o := by
    unfold findOutpassById
    rw [hsplit]
    exact find_of_split id pre o post hpre ho
  rw [rejectOutpass_pass db clock user id remarks o hrole hfind h1 h2,
    updateOutpass_split db clock.second id _ pre o post hsplit hpre ho]
  exact rejectRespond_rejected o user clock remarks _

/-- The lookup after the first record with the id was replaced by one with the same id. -/
theorem findOutpassById_replaced (db : Database) (id : String) (pre : List Outpass)
    (o o1 : Outpass) (post : List Outpass)
    (hpre : ∀ x ∈ pre, idMatches id x = false) (ho : idMatches id o = true)
    (hid : o1.id = o.id) :
    findOutpassById { db with outpasses := pre ++ o1 :: post } id = some o1 := by
  unfold findOutpassById
  apply find_of_split id pre o1 post hpre
  unfold idMatches at ho ⊢
  rw [hid]
  exact ho

/-- The effect of `approveOutpass` on the database: nothing, with a response
other than 200, or one `Written` replacement of the first record with the id,
with response 200. -/
theorem approveOutpass_effect (db : Database) (clock : Clock) (user : ReqUser)
    (id : String) (remarks : Option String) :
    ((approveOutpass db clock user id remarks).2 = db ∧
      (approveOutpass db clock user id remarks).1.status ≠ 200) ∨
    ∃ pre o post o1, db.outpasses = pre ++ o :: post ∧
      (∀ x ∈ pre, idMatches id x = false) ∧ idMatches id o = true ∧
      Written user clock remarks o o1 ∧
      (approveOutpass db clock user id remarks).1.status = 200 ∧
      (approveOutpass db clock user id remarks).2 = { db with outpasses := pre ++ o1 :: post } := by
  cases hfind : findOutpassById db id with
  | none =>
    left
    rw [approveOutpass_unknown db clock user id remarks hfind]
    simp [failure]
  | some o =>
    obtain ⟨pre, post, hsplit, hpre, ho⟩ := findOutpassById_split hfind
    by_cases hm : user.role = "mentor"
    · by_cases hok : o.status = "pending" ∧ o.isWeekday = true
      · right
        obtain ⟨h200, hdb⟩ := approveOutpass_mentor_result db clock user id remarks pre o post
          hsplit hpre ho hm hok.1 hok.2
        exact ⟨pre, o, post, _, hsplit, hpre, ho, Written.byMentor hm hok.1 hok.2, h200, hdb⟩
      · left
        rw [approveOutpass_mentor_stop db clock user id remarks o hm hfind hok]
        simp [failure]
    · by_cases hw : user.role = "warden"
      · by_cases hstop : o.status = "warden_approved" ∨ o.status = "rejected" ∨
            (o.isWeekday = true ∧ o.status ≠ "mentor_approved")
        · left
          obtain ⟨h400, hdb⟩ :=
            approveOutpass_warden_stop db clock user id remarks o hw hfind hstop
          exact ⟨hdb, by rw [h400]; decide⟩
        · right
          have h1 : o.status ≠ "warden_approved" := fun h => hstop (Or.inl h)
          have h2 : o.status ≠ "rejected" := fun h => hstop (Or.inr (Or.inl h))
          have h3 : o.isWeekday = true → o.status = "mentor_approved" := by
            intro hd
            by_contra hs
            exact hstop (Or.inr (Or.inr ⟨hd, hs⟩))
          obtain ⟨h200, hdb⟩ := approveOutpass_warden_result db clock user id remarks pre o post
            hsplit hpre ho hw h1 h2 h3
          exact ⟨pre, o, post, _, hsplit, hpre, ho, Written.byWarden hw h1 h2 h3, h200, hdb⟩
      · left
        rw [approveOutpass_other_role db clock user id remarks o hm hw hfind]
        simp [failure]

/-- The effect of `rejectOutpass` on the database: nothing, with a response
other than 200, or one `Written` replacement of the first record with the id;
in the second case the response is 200 exactly when the acting user is in the
users table, and 500 when not. -/
theorem rejectOutpass_effect (db : Database) (clock : Clock) (user : ReqUser)
    (id : String) (remarks : Option String) :
    ((rejectOutpass db clock user id remarks).2 = db ∧
      (rejectOutpass db clock user id remarks).1.status ≠ 200) ∨
    ∃ pre o post, db.outpasses = pre ++ o :: post ∧
      (∀ x ∈ pre, idMatches id x = false) ∧ idMatches id o = true ∧
      Written user clock remarks o (rejected o user clock remarks) ∧
      (rejectOutpass db clock user id remarks).2 =
        { db with outpasses := pre ++ rejected o user clock remarks :: post } ∧
      ((findUserById db user.id).isSome →
        (rejectOutpass db clock user id remarks).1.status = 200) ∧
      (findUserById db user.id = none →
        (rejectOutpass db clock user id remarks).1.status = 500) := by
  by_cases hrole : user.role = "mentor" ∨ user.role = "warden"
  · cases hfind : findOutpassById db id with
    | none =>
      left
      rw [rejectOutpass_unknown db clock user id remarks hrole hfind]
      simp [failure]
    | some o =>
      obtain ⟨pre, post, hsplit, hpre, ho⟩ := findOutpassById_split hfind
      by_cases hterm : o.status = "warden_approved" ∨ o.status = "rejected"
      · left
        rw [rejectOutpass_terminal db clock user id remarks o hrole hfind hterm]
        simp [failure]
      · right
        have h1 : o.status ≠ "warden_approved" := fun h => hterm (Or.inl h)
        have h2 : o.status ≠ "rejected" := fun h => hterm (Or.inr h)
        obtain ⟨hdb, hres⟩ := rejectOutpass_result db clock user id remarks pre o post
          hsplit hpre ho hrole h1 h2
        exact ⟨pre, o, post, hsplit, hpre, ho, Written.byReject hrole h1 h2, hdb, hres⟩
  · left
    have hm : user.role ≠ "mentor" := fun h => hrole (Or.inl h)
    have hw : user.role ≠ "warden" := fun h => hrole (Or.inr h)
    rw [rejectOutpass_other_role db clock user id remarks hm hw]
    simp [failure]

end outpassController

/-! ## Properties of a single write -/

theorem written_statusStep {user : ReqUser} {clock : Clock} {remarks : Option String}
    {o o1 : Outpass} (h : Written user clock remarks o o1) (hs : IsStatus o.status) :
    StatusStep o.status o1.status := by
  unfold StatusStep
  cases h with
  | byMentor _ hp _ => right; left; exact ⟨hp, rfl⟩
  | byWarden _ h1 h2 _ =>
    rcases hs with hs | hs | hs | hs
    · right; right; right; left; exact ⟨hs, rfl⟩
    · right; right; left; exact ⟨hs, rfl⟩
    · exact absurd hs h1
    · exact absurd hs h2
  | byReject _ h1 h2 =>
    rcases hs with hs | hs | hs | hs
    · right; right; right; right; left; exact ⟨hs, rfl⟩
    · right; right; right; right; right; exact ⟨hs, rfl⟩
    · exact absurd hs h1
    · exact absurd hs h2

theorem written_not_terminal {user : ReqUser} {clock : Clock} {remarks : Option String}
    {o o1 : Outpass} (h : Written user clock remarks o o1) :
    o.status ≠ "warden_approved" ∧ o.status ≠ "rejected" := by
  cases h with
  | byMentor _ hp _ => rw [hp]; exact ⟨by decide, by decide⟩
  | byWarden _ h1 h2 _ => exact ⟨h1, h2⟩
  | byReject _ h1 h2 => exact ⟨h1, h2⟩

theorem written_sameCreationFields {user : ReqUser} {clock : Clock} {remarks : Option String}
    {o o1 : Outpass} (h : Written user clock remarks o o1) : SameCreationFields o o1 := by
  cases h <;> simp [SameCreationFields, mentorApproved, wardenApproved, rejected]

theorem written_atMostOneSlotDiffers {user : ReqUser} {clock : Clock}
    {remarks : Option String} {o o1 : Outpass} (h : Written user clock remarks o o1) :
    AtMostOneSlotDiffers o o1 := by
  cases h <;> simp [AtMostOneSlotDiffers, mentorApproved, wardenApproved, rejected]

theorem written_slotsKept {user : ReqUser} {clock : Clock} {remarks : Option String}
    {o o1 : Outpass} (h : Written user clock remarks o o1) (hinv : SlotsAgreeWithStatus o) :
    SlotsKept o o1 := by
  obtain ⟨hm, hw, hr⟩ := hinv
  cases h with
  | byMentor _ hp _ =>
    refine ⟨fun hset => absurd hp (hm hset), fun _ => rfl, fun _ => rfl⟩
  | byWarden _ h1 _ _ =>
    refine ⟨fun _ => rfl, fun hset => absurd (hw hset) h1, fun _ => rfl⟩
  | byReject _ _ h2 =>
    refine ⟨fun _ => rfl, fun _ => rfl, fun hset => absurd (hr hset) h2⟩

theorem written_slotsAgreeWithStatus {user : ReqUser} {clock : Clock}
    {remarks : Option String} {o o1 : Outpass} (h : Written user clock remarks o o1)
    (hinv : SlotsAgreeWithStatus o) : SlotsAgreeWithStatus o1 := by
  obtain ⟨hm, hw, hr⟩ := hinv
  cases h with
  | byMentor _ hp _ =>
    refine ⟨fun _ => by simp [mentorApproved], fun hset => ?_, fun hset => ?_⟩
    · have := hw hset
      rw [hp] at this
      exact absurd this (by decide)
    · have := hr hset
      rw [hp] at this
      exact absurd this (by decide)
  | byWarden _ _ h2 _ =>
    refine ⟨fun _ => by simp [wardenApproved], fun _ => rfl, fun hset => ?_⟩
    exact absurd (hr hset) h2
  | byReject _ h1 _ =>
    refine ⟨fun _ => by simp [rejected], fun hset => ?_, fun _ => rfl⟩
    exact absurd (hw hset) h1

/-- A relation that holds of every record with itself and of the replaced
record with its replacement holds position by position. -/
theorem forall₂_replace {R : Outpass → Outpass → Prop} (hrefl : ∀ x, R x x)
    (pre : List Outpass) (o o1 : Outpass) (post : List Outpass) (h : R o o1) :
    List.Forall₂ R (pre ++ o :: post) (pre ++ o1 :: post) := by
  induction pre with
  | nil =>
    exact List.Forall₂.cons h (List.forall₂_same.mpr (fun x _ => hrefl x))
  | cons b rest ih => exact List.Forall₂.cons (hrefl b) ih

/-! ## The approval contract -/

open database outpassController

/-- C1: for a request id that resolves to a record `o`, `approveOutpass` called
with role 'mentor' responds 200 if and only if `o` has status 'pending' and
`isWeekday` true; in that case the stored record is `o` with status
'mentor_approved', an `approvedByMentor` slot holding the acting user id and the
supplied remarks, and a new `updatedAt`; in every other case the response is 400. -/
theorem C1_approveOutpass_mentor (db : Database) (clock : Clock) (user : ReqUser)
    (id : String) (remarks : Option String) (o : Outpass)
    (hrole : user.role = "mentor") (hfind : findOutpassById db id = some o) :
    ((approveOutpass db clock user id remarks).1.status = 200 ↔
      (o.status = "pending" ∧ o.isWeekday = true)) ∧
    ((o.status = "pending" ∧ o.isWeekday = true) →
      findOutpassById (approveOutpass db clock user id remarks).2 id =
        some { o with
               status := "mentor_approved"
               approvedByMentor :=
                 some { userId := user.id, timestamp := clock.first, remarks := remarks }
               updatedAt := clock.second }) ∧
    (¬ (o.status = "pending" ∧ o.isWeekday = true) →
      (approveOutpass db clock user id remarks).1.status = 400) := by
  obtain ⟨pre, post, hsplit, hpre, ho⟩ := findOutpassById_split hfind
  have hpass : (o.status = "pending" ∧ o.isWeekday = true) →
      (approveOutpass db clock user id remarks).1.status = 200 ∧
      (approveOutpass db clock user id remarks).2 =
        { db with outpasses := pre ++ mentorApproved o user clock remarks :: post } :=
    fun hok => approveOutpass_mentor_result db clock user id remarks pre o post
      hsplit hpre ho hrole hok.1 hok.2
  have hstop : ¬ (o.status = "pending" ∧ o.isWeekday = true) →
      (approveOutpass db clock user id remarks).1.status = 400 := by
    intro hno
    rw [approveOutpass_mentor_stop db clock user id remarks o hrole hfind hno]
    rfl
  refine ⟨⟨fun h200 => ?_, fun hok => (hpass hok).1⟩, fun hok => ?_, hstop⟩
  · by_contra hno
    rw [hstop hno] at h200
    exact absurd h200 (by decide)
  · rw [(hpass hok).2]
    exact findOutpassById_replaced db id pre o _ post hpre ho rfl

/-- C1, at the seeded mentor approving the pending weekday record 1. -/
theorem C1_approveOutpass_mentor_witness :
    sampleMentor.role = "mentor" ∧
    findOutpassById (sampleDb true "pending") "1" = some (sampleOutpass true "pending") ∧
    (((approveOutpass (sampleDb true "pending") sampleClock sampleMentor "1"
        (some "ok")).1.status = 200 ↔
      ((sampleOutpass true "pending").status = "pending" ∧
        (sampleOutpass true "pending").isWeekday = true)) ∧
    (((sampleOutpass true "pending").status = "pending" ∧
        (sampleOutpass true "pending").isWeekday = true) →
      findOutpassById (approveOutpass (sampleDb true "pending") sampleClock sampleMentor
          "1" (some "ok")).2 "1" =
        some { sampleOutpass true "pending" with
               status := "mentor_approved"
               approvedByMentor :=
                 some { userId := sampleMentor.id, timestamp := sampleClock.first,
                        remarks := some "ok" }
               updatedAt := sampleClock.second }) ∧
    (¬ ((sampleOutpass true "pending").status = "pending" ∧
        (sampleOutpass true "pending").isWeekday = true) →
      (approveOutpass (sampleDb true "pending") sampleClock sampleMentor "1"
        (some "ok")).1.status = 400)) :=
  ⟨rfl, by decide,
    C1_approveOutpass_mentor (sampleDb true "pending") sampleClock sampleMentor "1" (some "ok")
      (sampleOutpass true "pending") rfl (by decide)⟩

/-- C2: for a request id that resolves to a record `o`, `approveOutpass` called
with role 'warden' responds 200 when `o` is (pending, not weekday) or
(mentor_approved, weekday), and the stored record is then `o` with status
'warden_approved', an `approvedByWarden` slot holding the acting user id and
the remarks, and a new `updatedAt`; it responds 400 and leaves the database unchanged when `o` is a
weekday record still 'pending' or has status 'warden_approved' or 'rejected'. -/
theorem C2_approveOutpass_warden (db : Database) (clock : Clock) (user : ReqUser)
    (id : String) (remarks : Option String) (o : Outpass)
    (hrole : user.role = "warden") (hfind : findOutpassById db id = some o) :
    (((o.status = "pending" ∧ o.isWeekday = false) ∨
        (o.status = "mentor_approved" ∧ o.isWeekday = true)) →
      (approveOutpass db clock user id remarks).1.status = 200 ∧
      findOutpassById (approveOutpass db clock user id remarks).2 id =
        some { o with
               status := "warden_approved"
               approvedByWarden :=
                 some { userId := user.id, timestamp := clock.first, remarks := remarks }
               updatedAt := clock.second }) ∧
    (((o.isWeekday = true ∧ o.status = "pending") ∨ o.status = "warden_approved" ∨
        o.status = "rejected") →
      (approveOutpass db clock user id remarks).1.status = 400 ∧
      (approveOutpass db clock user id remarks).2 = db) := by
  obtain ⟨pre, post, hsplit, hpre, ho⟩ := findOutpassById_split hfind
  constructor
  · intro hok
    have h1 : o.status ≠ "warden_approved" := by
      rcases hok with ⟨hs, _⟩ | ⟨hs, _⟩ <;> rw [hs] <;> decide
    have h2 : o.status ≠ "rejected" := by
      rcases hok with ⟨hs, _⟩ | ⟨hs, _⟩ <;> rw [hs] <;> decide
    have h3 : o.isWeekday = true → o.status = "mentor_approved" := by
      intro hd
      rcases hok with ⟨_, hd1⟩ | ⟨hs, _⟩
      · rw [hd1] at hd
        exact absurd hd (by decide)
      · exact hs
    obtain ⟨h200, hdb⟩ := approveOutpass_warden_result db clock user id remarks pre o post
      hsplit hpre ho hrole h1 h2 h3
    refine ⟨h200, ?_⟩
    rw [hdb]
    exact findOutpassById_replaced db id pre o _ post hpre ho rfl
  · intro hno
    apply approveOutpass_warden_stop db clock user id remarks o hrole hfind
    rcases hno with ⟨hd, hs⟩ | h | h
    · right; right
      refine ⟨hd, ?_⟩
      rw [hs]
      decide
    · left; exact h
    · right; left; exact h

/-- C2, at the seeded warden approving the pending weekend record 1. -/
theorem C2_approveOutpass_warden_witness :
    sampleWarden.role = "warden" ∧
    findOutpassById (sampleDb false "pending") "1" = some (sampleOutpass false "pending") ∧
    (((((sampleOutpass false "pending").status = "pending" ∧
          (sampleOutpass false "pending").isWeekday = false) ∨
        ((sampleOutpass false "pending").status = "mentor_approved" ∧
          (sampleOutpass false "pending").isWeekday = true)) →
      (approveOutpass (sampleDb false "pending") sampleClock sampleWarden "1" none).1.status
        = 200 ∧
      findOutpassById (approveOutpass (sampleDb false "pending") sampleClock sampleWarden
          "1" none).2 "1" =
        some { sampleOutpass false "pending" with
               status := "warden_approved"
               approvedByWarden :=
                 some { userId := sampleWarden.id, timestamp := sampleClock.first,
                        remarks := none }
               updatedAt := sampleClock.second }) ∧
    ((((sampleOutpass false "pending").isWeekday = true ∧
          (sampleOutpass false "pending").status = "pending") ∨
        (sampleOutpass false "pending").status = "warden_approved" ∨
        (sampleOutpass false "pending").status = "rejected") →
      (approveOutpass (sampleDb false "pending") sampleClock sampleWarden "1" none).1.status
        = 400 ∧
      (approveOutpass (sampleDb false "pending") sampleClock sampleWarden "1" none).2
        = sampleDb false "pending")) :=
  ⟨rfl, by decide,
    C2_approveOutpass_warden (sampleDb false "pending") sampleClock sampleWarden "1" none
      (sampleOutpass false "pending") rfl (by decide)⟩

/-- C3: the claim is that a mentor has no legal action outside (pending, weekday).
`rejectOutpass` does not test the day type or the stage: on the pending weekend
record 1 the seeded mentor's rejection is answered 200 and the stored record
becomes 'rejected', while `approveOutpass` refuses the same mentor with 400. -/
theorem C3_mentor_rejects_weekend_record :
    findOutpassById (sampleDb false "pending") "1" = some (sampleOutpass false "pending") ∧
    (approveOutpass (sampleDb false "pending") sampleClock sampleMentor "1" none).1.status
      = 400 ∧
    (rejectOutpass (sampleDb false "pending") sampleClock sampleMentor "1" none).1.status
      = 200 ∧
    findOutpassById
      (rejectOutpass (sampleDb false "pending") sampleClock sampleMentor "1" none).2 "1" =
      some (rejected (sampleOutpass false "pending") sampleMentor sampleClock none) ∧
    (rejected (sampleOutpass false "pending") sampleMentor sampleClock none).status
      = "rejected" := by
  decide

/-- C4: the claim is that a warden has no legal action on a weekday record that
is still 'pending'. `rejectOutpass` does not test the stage: on the pending
weekday record 1 the seeded warden's rejection is answered 200 and the stored
record becomes 'rejected', while `approveOutpass` refuses the same warden with 400. -/
theorem C4_warden_rejects_pending_weekday_record :
    findOutpassById (sampleDb true "pending") "1" = some (sampleOutpass true "pending") ∧
    (approveOutpass (sampleDb true "pending") sampleClock sampleWarden "1" none).1.status
      = 400 ∧
    (rejectOutpass (sampleDb true "pending") sampleClock sampleWarden "1" none).1.status
      = 200 ∧
    findOutpassById
      (rejectOutpass (sampleDb true "pending") sampleClock sampleWarden "1" none).2 "1" =
      some (rejected (sampleOutpass true "pending") sampleWarden sampleClock none) ∧
    (rejected (sampleOutpass true "pending") sampleWarden sampleClock none).status
      = "rejected" := by
  decide

/-- C6: the claim is that a response other than 200 leaves the store as it was.
For an acting mentor whose id is not in the users table, `rejectOutpass` stores
the rejection and then fails while it builds the response: the answer is 500 and
the stored record 1 has become 'rejected'. -/
theorem C6_reject_fails_after_the_write :
    findUserById (sampleDb true "pending") unknownMentor.id = none ∧
    (rejectOutpass (sampleDb true "pending") sampleClock unknownMentor "1" none).1.status
      = 500 ∧
    (rejectOutpass (sampleDb true "pending") sampleClock unknownMentor "1" none).2
      ≠ sampleDb true "pending" ∧
    findOutpassById
      (rejectOutpass (sampleDb true "pending") sampleClock unknownMentor "1" none).2 "1" =
      some (rejected (sampleOutpass true "pending") unknownMentor sampleClock none) := by
  decide

/-! ## Monotonicity, rejection and frame -/

/-- C5: status only moves forward. In a database whose records carry one of the
four statuses, after any `approveOutpass` or `rejectOutpass` call, by any actor,
each record's (old status, new status) pair is unchanged or one of
pending->mentor_approved, mentor_approved->warden_approved,
pending->warden_approved, pending->rejected, mentor_approved->rejected; and a
record whose status is 'warden_approved' or 'rejected' keeps its status. -/
theorem C5_status_moves_forward (db : Database) (clock : Clock) (user : ReqUser)
    (id : String) (remarks : Option String)
    (hvalid : ∀ o ∈ db.outpasses, IsStatus o.status) :
    List.Forall₂ MovesForward db.outpasses (approveOutpass db clock user id remarks).2.outpasses ∧
    List.Forall₂ MovesForward db.outpasses (rejectOutpass db clock user id remarks).2.outpasses := by
  have hrefl : ∀ x : Outpass, MovesForward x x := fun x => ⟨Or.inl rfl, fun _ => rfl⟩
  have hstep : ∀ o o1, o ∈ db.outpasses → Written user clock remarks o o1 →
      MovesForward o o1 := by
    intro o o1 hmem hw
    refine ⟨written_statusStep hw (hvalid o hmem), fun hterm => ?_⟩
    rcases hterm with h | h
    · exact absurd h (written_not_terminal hw).1
    · exact absurd h (written_not_terminal hw).2
  constructor
  · rcases approveOutpass_effect db clock user id remarks with ⟨hdb, _⟩ |
      ⟨pre, o, post, o1, hsplit, _, _, hw, _, hdb⟩
    · rw [hdb]
      exact List.forall₂_same.mpr (fun x _ => hrefl x)
    · have hmem : o ∈ db.outpasses := by rw [hsplit]; simp
      rw [hdb, hsplit]
      exact forall₂_replace hrefl pre o o1 post (hstep o o1 hmem hw)
  · rcases rejectOutpass_effect db clock user id remarks with ⟨hdb, _⟩ |
      ⟨pre, o, post, hsplit, _, _, hw, hdb, _⟩
    · rw [hdb]
      exact List.forall₂_same.mpr (fun x _ => hrefl x)
    · have hmem : o ∈ db.outpasses := by rw [hsplit]; simp
      rw [hdb, hsplit]
      exact forall₂_replace hrefl pre o _ post (hstep o _ hmem hw)

/-- C5, at the seeded warden approving the pending weekend record 1. -/
theorem C5_status_moves_forward_witness :
    (∀ o ∈ (sampleDb false "pending").outpasses, IsStatus o.status) ∧
    (List.Forall₂ MovesForward (sampleDb false "pending").outpasses
      (approveOutpass (sampleDb false "pending") sampleClock sampleWarden "1"
        none).2.outpasses ∧
    List.Forall₂ MovesForward (sampleDb false "pending").outpasses
      (rejectOutpass (sampleDb false "pending") sampleClock sampleWarden "1"
        none).2.outpasses) :=
  ⟨by simp [sampleDb, sampleOutpass, IsStatus],
    C5_status_moves_forward (sampleDb false "pending") sampleClock sampleWarden "1" none
      (by simp [sampleDb, sampleOutpass, IsStatus])⟩

/-- C7: every `rejectOutpass` call answered 200 leaves the target record with
status 'rejected' and a `rejectedBy` slot holding the acting user id and the
supplied remarks, or 'No remarks provided' when the remarks are omitted or
empty; its `approvedByMentor` and `approvedByWarden` slots are as they were. -/
theorem C7_successful_reject (db : Database) (clock : Clock) (user : ReqUser)
    (id : String) (remarks : Option String)
    (h200 : (rejectOutpass db clock user id remarks).1.status = 200) :
    ∃ o o1 text, findOutpassById db id = some o ∧
      findOutpassById (rejectOutpass db clock user id remarks).2 id = some o1 ∧
      o1.status = "rejected" ∧
      o1.rejectedBy =
        some { userId := user.id, timestamp := clock.first, remarks := some text } ∧
      ((remarks = none ∨ remarks = some "") → text = "No remarks provided") ∧
      (∀ s, remarks = some s → s ≠ "" → text = s) ∧
      o1.approvedByMentor = o.approvedByMentor ∧
      o1.approvedByWarden = o.approvedByWarden := by
  rcases rejectOutpass_effect db clock user id remarks with ⟨_, hne⟩ |
    ⟨pre, o, post, hsplit, hpre, ho, _, hdb, _, _⟩
  · exact absurd h200 hne
  · refine ⟨o, rejected o user clock remarks, JS.orElse remarks "No remarks provided",
      ?_, ?_, rfl, rfl, ?_, ?_, rfl, rfl⟩
    · unfold findOutpassById
      rw [hsplit]
      exact find_of_split id pre o post hpre ho
    · rw [hdb]
      exact findOutpassById_replaced db id pre o _ post hpre ho rfl
    · intro h
      rcases h with h | h <;> simp [h, JS.orElse]
    · intro s hs hne
      simp [hs, JS.orElse, hne]

/-- C7, at the seeded mentor rejecting the pending weekday record 1 without remarks. -/
theorem C7_successful_reject_witness :
    (rejectOutpass (sampleDb true "pending") sampleClock sampleMentor "1" none).1.status
      = 200 ∧
    ∃ o o1 text, findOutpassById (sampleDb true "pending") "1" = some o ∧
      findOutpassById
        (rejectOutpass (sampleDb true "pending") sampleClock sampleMentor "1" none).2 "1"
        = some o1 ∧
      o1.status = "rejected" ∧
      o1.rejectedBy =
        some { userId := sampleMentor.id, timestamp := sampleClock.first,
               remarks := some text } ∧
      (((none : Option String) = none ∨ (none : Option String) = some "") →
        text = "No remarks provided") ∧
      (∀ s, (none : Option String) = some s → s ≠ "" → text = s) ∧
      o1.approvedByMentor = o.approvedByMentor ∧
      o1.approvedByWarden = o.approvedByWarden :=
  ⟨by decide,
    C7_successful_reject (sampleDb true "pending") sampleClock sampleMentor "1" none
      (by decide)⟩

/-- C9: frame of a transition. After any `approveOutpass` or `rejectOutpass`
call, answered 200 or not, users and counter are unchanged and the record list
is either unchanged or differs only at the first record with the requested id:
the records before and after it, their number and their order are the same, and
on that record id, isWeekday, outDate, inDate, studentName, studentId,
guardianName, guardianNumber, reason, createdBy and createdAt are unchanged and
at most one decision slot differs. -/
theorem C9_transition_frame (db : Database) (clock : Clock) (user : ReqUser)
    (id : String) (remarks : Option String) :
    TransitionFrame db id (approveOutpass db clock user id remarks).2 ∧
    TransitionFrame db id (rejectOutpass db clock user id remarks).2 := by
  constructor
  · rcases approveOutpass_effect db clock user id remarks with ⟨hdb, _⟩ |
      ⟨pre, o, post, o1, hsplit, hpre, ho, hw, _, hdb⟩
    · rw [hdb]
      exact ⟨rfl, rfl, Or.inl rfl⟩
    · rw [hdb]
      exact ⟨rfl, rfl, Or.inr ⟨pre, o, post, o1, hsplit, rfl, hpre, ho,
        written_sameCreationFields hw, written_atMostOneSlotDiffers hw⟩⟩
  · rcases rejectOutpass_effect db clock user id remarks with ⟨hdb, _⟩ |
      ⟨pre, o, post, hsplit, hpre, ho, hw, hdb, _⟩
    · rw [hdb]
      exact ⟨rfl, rfl, Or.inl rfl⟩
    · rw [hdb]
      exact ⟨rfl, rfl, Or.inr ⟨pre, o, post, _, hsplit, rfl, hpre, ho,
        written_sameCreationFields hw, written_atMostOneSlotDiffers hw⟩⟩

/-! ## Unknown requests -/

/-- The lookup finds nothing when no record carries the parsed id. -/
theorem findOutpassById_none_of_absent (db : Database) (id : String)
    (habsent : ∀ o ∈ db.outpasses, JS.parseInt id ≠ some o.id) :
    findOutpassById db id = none := by
  unfold findOutpassById
  rw [List.find?_eq_none]
  intro o ho
  simpa [idMatches] using habsent o ho

/-- C10, as the claim states it, fails for a role other than mentor and warden:
on an id that no record has, `rejectOutpass` answers the seeded parent with 403
and not with 404. -/
theorem C10_reject_unknown_request_by_parent :
    (∀ o ∈ (sampleDb true "pending").outpasses, JS.parseInt "7" ≠ some o.id) ∧
    (rejectOutpass (sampleDb true "pending") sampleClock sampleParent "7" none).1.status
      = 403 ∧
    ¬ ((rejectOutpass (sampleDb true "pending") sampleClock sampleParent "7" none).1.status
      = 404) := by
  decide

/-- C10, amended: when no record has the requested id, `approveOutpass` answers
404 for every role; `rejectOutpass` answers 404 for the roles mentor and warden
and 403 for every other role; in all cases the database is unchanged. -/
theorem C10_unknown_request (db : Database) (clock : Clock) (user : ReqUser)
    (id : String) (remarks : Option String)
    (habsent : ∀ o ∈ db.outpasses, JS.parseInt id ≠ some o.id) :
    (approveOutpass db clock user id remarks).1.status = 404 ∧
    (approveOutpass db clock user id remarks).2 = db ∧
    ((user.role = "mentor" ∨ user.role = "warden") →
      (rejectOutpass db clock user id remarks).1.status = 404) ∧
    ((user.role ≠ "mentor" ∧ user.role ≠ "warden") →
      (rejectOutpass db clock user id remarks).1.status = 403) ∧
    (rejectOutpass db clock user id remarks).2 = db := by
  have hfind := findOutpassById_none_of_absent db id habsent
  refine ⟨?_, ?_, ?_, ?_, ?_⟩
  · rw [approveOutpass_unknown db clock user id remarks hfind]
    rfl
  · rw [approveOutpass_unknown db clock user id remarks hfind]
  · intro hrole
    rw [rejectOutpass_unknown db clock user id remarks hrole hfind]
    rfl
  · intro hrole
    rw [rejectOutpass_other_role db clock user id remarks hrole.1 hrole.2]
    rfl
  · by_cases hrole : user.role = "mentor" ∨ user.role = "warden"
    · rw [rejectOutpass_unknown db clock user id remarks hrole hfind]
    · rw [rejectOutpass_other_role db clock user id remarks
        (fun h => hrole (Or.inl h)) (fun h => hrole (Or.inr h))]

/-- C10 amended, at the seeded warden and the id 7 that no record has. -/
theorem C10_unknown_request_witness :
    (∀ o ∈ (sampleDb true "pending").outpasses, JS.parseInt "7" ≠ some o.id) ∧
    ((approveOutpass (sampleDb true "pending") sampleClock sampleWarden "7" none).1.status
      = 404 ∧
    (approveOutpass (sampleDb true "pending") sampleClock sampleWarden "7" none).2
      = sampleDb true "pending" ∧
    ((sampleWarden.role = "mentor" ∨ sampleWarden.role = "warden") →
      (rejectOutpass (sampleDb true "pending") sampleClock sampleWarden "7" none).1.status
        = 404) ∧
    ((sampleWarden.role ≠ "mentor" ∧ sampleWarden.role ≠ "warden") →
      (rejectOutpass (sampleDb true "pending") sampleClock sampleWarden "7" none).1.status
        = 403) ∧
    (rejectOutpass (sampleDb true "pending") sampleClock sampleWarden "7" none).2
      = sampleDb true "pending") :=
  ⟨by decide,
    C10_unknown_request (sampleDb true "pending") sampleClock sampleWarden "7" none
      (by decide)⟩

/-! ## Reachable databases and the decision slots -/

/-- The effect of the handler `createOutpass` on the database: nothing, or one
record pushed at the end, with the id taken from the counter, status 'pending'
and no decision slot, and the counter incremented. -/
theorem createOutpass_effect (helper : DateHelper) (db : Database) (clock : Clock)
    (user : ReqUser) (body : CreateBody) :
    (outpassController.createOutpass helper db clock user body).2 = db ∨
    ∃ o : Outpass, o.id = db.nextOutpassId ∧ o.status = "pending" ∧
      o.approvedByMentor = none ∧ o.approvedByWarden = none ∧ o.rejectedBy = none ∧
      (outpassController.createOutpass helper db clock user body).2 =
        { db with outpasses := db.outpasses ++ [o], nextOutpassId := db.nextOutpassId + 1 } := by
  unfold outpassController.createOutpass
  split
  · left; rfl
  · simp only []
    split
    · left; rfl
    · split
      · left; rfl
      · right
        simp only [database.createOutpass]
        split <;> exact ⟨_, rfl, rfl, rfl, rfl, rfl, rfl⟩

/-- In a reachable database a decision slot that is set fixes the status of its
record: `approvedByMentor` excludes 'pending', `approvedByWarden` forces
'warden_approved', `rejectedBy` forces 'rejected'. -/
theorem reachable_slotsAgreeWithStatus {helper : DateHelper} {db : Database}
    (h : Reachable helper db) : ∀ o ∈ db.outpasses, SlotsAgreeWithStatus o := by
  induction h with
  | init users =>
    intro o ho
    simp at ho
  | create clock user body _ ih =>
    rcases createOutpass_effect helper _ clock user body with hdb |
      ⟨o1, _, hs, hm, hw, hr, hdb⟩
    · rw [hdb]
      exact ih
    · rw [hdb]
      intro o ho
      simp only [List.mem_append, List.mem_singleton] at ho
      rcases ho with ho | ho
      · exact ih o ho
      · subst ho
        simp [SlotsAgreeWithStatus, hm, hw, hr]
  | approve clock user id remarks _ ih =>
    rcases approveOutpass_effect _ clock user id remarks with ⟨hdb, _⟩ |
      ⟨pre, o, post, o1, hsplit, _, _, hw, _, hdb⟩
    · rw [hdb]
      exact ih
    · rw [hdb]
      rw [hsplit] at ih
      intro x hx
      simp only [List.mem_append, List.mem_cons] at hx
      rcases hx with hx | hx | hx
      · exact ih x (by simp [hx])
      · subst hx
        exact written_slotsAgreeWithStatus hw (ih o (by simp))
      · exact ih x (by simp [hx])
  | reject clock user id remarks _ ih =>
    rcases rejectOutpass_effect _ clock user id remarks with ⟨hdb, _⟩ |
      ⟨pre, o, post, hsplit, _, _, hw, hdb, _⟩
    · rw [hdb]
      exact ih
    · rw [hdb]
      rw [hsplit] at ih
      intro x hx
      simp only [List.mem_append, List.mem_cons] at hx
      rcases hx with hx | hx | hx
      · exact ih x (by simp [hx])
      · subst hx
        exact written_slotsAgreeWithStatus hw (ih o (by simp))
      · exact ih x (by simp [hx])

/-- C8: decision slots are append-only. In every database reachable from the
empty one by `createOutpass`, `approveOutpass` and `rejectOutpass` calls, and
for every further `approveOutpass` or `rejectOutpass` call, the record list
keeps its length and each of the slots `approvedByMentor`, `approvedByWarden`
and `rejectedBy` that was set on a record before the call has the same value on
the record at the same position after the call. -/
theorem C8_decision_slots_append_only (helper : DateHelper) (db : Database)
    (hreach : Reachable helper db) (clock : Clock) (user : ReqUser) (id : String)
    (remarks : Option String) :
    List.Forall₂ SlotsKept db.outpasses (approveOutpass db clock user id remarks).2.outpasses ∧
    List.Forall₂ SlotsKept db.outpasses (rejectOutpass db clock user id remarks).2.outpasses := by
  have hinv := reachable_slotsAgreeWithStatus hreach
  have hrefl : ∀ x : Outpass, SlotsKept x x := fun x => ⟨fun _ => rfl, fun _ => rfl, fun _ => rfl⟩
  constructor
  · rcases approveOutpass_effect db clock user id remarks with ⟨hdb, _⟩ |
      ⟨pre, o, post, o1, hsplit, _, _, hw, _, hdb⟩
    · rw [hdb]
      exact List.forall₂_same.mpr (fun x _ => hrefl x)
    · have hmem : o ∈ db.outpasses := by rw [hsplit]; simp
      rw [hdb, hsplit]
      exact forall₂_replace hrefl pre o o1 post (written_slotsKept hw (hinv o hmem))
  · rcases rejectOutpass_effect db clock user id remarks with ⟨hdb, _⟩ |
      ⟨pre, o, post, hsplit, _, _, hw, hdb, _⟩
    · rw [hdb]
      exact List.forall₂_same.mpr (fun x _ => hrefl x)
    · have hmem : o ∈ db.outpasses := by rw [hsplit]; simp
      rw [hdb, hsplit]
      exact forall₂_replace hrefl pre o _ post (written_slotsKept hw (hinv o hmem))

/-- C8, at the database in which record 1 carries the mentor's decision and the
seeded warden acts on it. -/
theorem C8_decision_slots_append_only_witness :
    Reachable sampleHelper afterMentorApproval ∧
    (List.Forall₂ SlotsKept afterMentorApproval.outpasses
      (approveOutpass afterMentorApproval sampleClock sampleWarden "1" none).2.outpasses ∧
    List.Forall₂ SlotsKept afterMentorApproval.outpasses
      (rejectOutpass afterMentorApproval sampleClock sampleWarden "1" none).2.outpasses) :=
  ⟨Reachable.approve sampleClock sampleMentor "1" (some "ok")
      (Reachable.create sampleClock sampleParent sampleBody (Reachable.init seedUsers)),
    C8_decision_slots_append_only sampleHelper afterMentorApproval
      (Reachable.approve sampleClock sampleMentor "1" (some "ok")
        (Reachable.create sampleClock sampleParent sampleBody (Reachable.init seedUsers)))
      sampleClock sampleWarden "1" none⟩

/-! ## The stable sort -/

namespace JS

theorem insertSorted_perm {α : Type} (cmp : α → α → Int) (a : α) (l : List α) :
    (insertSorted cmp a l).Perm (a :: l) := by
  induction l with
  | nil => exact List.Perm.refl _
  | cons b rest ih =>
    unfold insertSorted
    split
    · exact List.Perm.refl _
    · exact (List.Perm.cons b ih).trans (List.Perm.swap a b rest)

theorem sort_perm {α : Type} (cmp : α → α → Int) (l : List α) : (sort cmp l).Perm l := by
  induction l with
  | nil => exact List.Perm.refl _
  | cons a rest ih =>
    exact (insertSorted_perm cmp a (sort cmp rest)).trans (List.Perm.cons a ih)

/-- Insertion keeps a list ordered by decreasing key. -/
theorem insertSorted_pairwise {α : Type} (key : α → Int) (a : α) (l : List α)
    (h : l.Pairwise (fun x y => key y ≤ key x)) :
    (insertSorted (fun x y => key y - key x) a l).Pairwise (fun x y => key y ≤ key x) := by
  induction l with
  | nil => simp [insertSorted]
  | cons b rest ih =>
    obtain ⟨hb, hrest⟩ := List.pairwise_cons.mp h
    unfold insertSorted
    split
    · rename_i hle
      have hba : key b ≤ key a := by omega
      refine List.pairwise_cons.mpr ⟨?_, h⟩
      intro y hy
      rcases List.mem_cons.mp hy with hy | hy
      · rw [hy]; exact hba
      · exact le_trans (hb y hy) hba
    · rename_i hgt
      have hab : key a ≤ key b := by omega
      refine List.pairwise_cons.mpr ⟨?_, ih hrest⟩
      intro y hy
      have hy1 : y ∈ a :: rest := (insertSorted_perm _ a rest).subset hy
      rcases List.mem_cons.mp hy1 with hy1 | hy1
      · rw [hy1]; exact hab
      · exact hb y hy1

theorem sort_pairwise {α : Type} (key : α → Int) (l : List α) :
    (sort (fun x y => key y - key x) l).Pairwise (fun x y => key y ≤ key x) := by
  induction l with
  | nil => simp [sort]
  | cons a rest ih => exact insertSorted_pairwise key a _ ih

/-- Insertion puts an element in front of the elements of its own key. -/
theorem insertSorted_filter {α : Type} (key : α → Int) (t : Int) (a : α) (l : List α) :
    (insertSorted (fun x y => key y - key x) a l).filter (fun x => key x == t) =
      (a :: l).filter (fun x => key x == t) := by
  induction l with
  | nil => simp [insertSorted]
  | cons b rest ih =>
    unfold insertSorted
    split
    · rfl
    · rename_i hgt
      have hne : key b ≠ key a := by omega
      by_cases ha : key a = t
      · have hb : (key b == t) = false := by
          simp only [beq_eq_false_iff_ne, ne_eq]
          rw [← ha]
          exact hne
        simp only [List.filter_cons, hb] at ih ⊢
        simpa using ih
      · by_cases hb : key b = t
        · simp only [List.filter_cons] at ih ⊢
          simp [ha, hb] at ih ⊢
          exact ih
        · simp only [List.filter_cons] at ih ⊢
          simp [ha, hb] at ih ⊢
          exact ih

/-- The sort is stable: the elements of one key keep their order. -/
theorem sort_filter {α : Type} (key : α → Int) (t : Int) (l : List α) :
    (sort (fun x y => key y - key x) l).filter (fun x => key x == t) =
      l.filter (fun x => key x == t) := by
  induction l with
  | nil => rfl
  | cons a rest ih =>
    show (insertSorted _ a (sort _ rest)).filter _ = _
    rw [insertSorted_filter key t a (sort _ rest)]
    simp only [List.filter_cons, ih]

/-- Sorting commutes with a map that the comparator factors through. -/
theorem map_insertSorted {α β : Type} (f : β → α) (cmp : α → α → Int) (b : β) (l : List β) :
    (insertSorted (fun x y => cmp (f x) (f y)) b l).map f = insertSorted cmp (f b) (l.map f) := by
  induction l with
  | nil => rfl
  | cons c rest ih =>
    simp only [insertSorted, List.map_cons]
    split
    · rfl
    · simp only [List.map_cons, ih]

theorem map_sort {α β : Type} (f : β → α) (cmp : α → α → Int) (l : List β) :
    (sort (fun x y => cmp (f x) (f y)) l).map f = sort cmp (l.map f) := by
  induction l with
  | nil => rfl
  | cons b rest ih =>
    simp only [sort, List.map_cons]
    rw [map_insertSorted, ih]

end JS

/-! ## Query views -/

/-- The sort by decreasing `createdAt` returns its argument most recent first. -/
theorem mostRecentFirst_sort (sel : List Outpass) :
    MostRecentFirst sel (JS.sort (fun a b : Outpass => b.createdAt - a.createdAt) sel) :=
  ⟨JS.sort_perm _ sel, JS.sort_pairwise (fun o : Outpass => o.createdAt) sel,
    fun t => JS.sort_filter (fun o : Outpass => o.createdAt) t sel⟩

/-- The records carried by the response of `pendingRespond` are the given
records, sorted by decreasing `createdAt`. -/
theorem returnedPending_pendingRespond (db : Database) (sel : List Outpass) :
    returnedPending (pendingRespond db sel).1 =
      JS.sort (fun a b : Outpass => b.createdAt - a.createdAt) sel := by
  have hmap : (sel.map (populatePending db)).map (fun p => p.outpass) = sel := by
    rw [List.map_map]
    exact List.map_id sel
  have h := JS.map_sort (fun p : PopulatedPending => p.outpass)
    (fun a b : Outpass => b.createdAt - a.createdAt) (sel.map (populatePending db))
  rw [hmap] at h
  exact h

/-- The records carried by the response of `getHistory` are the records in
scope, sorted by decreasing `createdAt`. -/
theorem returnedHistory_getHistory (db : Database) (user : ReqUser) :
    returnedHistory (getHistory db user).1 =
      JS.sort (fun a b : Outpass => b.createdAt - a.createdAt) (historyScope db user) := by
  have hmap : ((historyScope db user).map (populateHistory db)).map (fun p => p.outpass) =
      historyScope db user := by
    rw [List.map_map]
    exact List.map_id _
  have h := JS.map_sort (fun p : Populated => p.outpass)
    (fun a b : Outpass => b.createdAt - a.createdAt)
    ((historyScope db user).map (populateHistory db))
  rw [hmap] at h
  exact h

/-- The branch of `getPendingRequests` for a mentor. -/
theorem getPendingRequests_mentor (db : Database) (user : ReqUser)
    (hrole : user.role = "mentor") :
    getPendingRequests db user =
      pendingRespond db (db.outpasses.filter (fun op => op.status == "pending" && op.isWeekday)) := by
  simp [getPendingRequests, hrole, getAllOutpasses]

/-- The branch of `getPendingRequests` for a warden. -/
theorem getPendingRequests_warden (db : Database) (user : ReqUser)
    (hrole : user.role = "warden") :
    getPendingRequests db user =
      pendingRespond db (db.outpasses.filter (fun op =>
        (op.status == "pending" && !op.isWeekday) || op.status == "mentor_approved")) := by
  have hne : ¬ ("warden" = "mentor") := by decide
  simp [getPendingRequests, hrole, hne, getAllOutpasses]

/-- The branch of `getPendingRequests` for any other role. -/
theorem getPendingRequests_other (db : Database) (user : ReqUser)
    (hm : user.role ≠ "mentor") (hw : user.role ≠ "warden") :
    getPendingRequests db user =
      ({ status := 403, success := false, message := some "Access denied"
         count := none, data := none }, db) := by
  simp [getPendingRequests, hm, hw]

/-- C14: the records returned by `getPendingRequests` for role 'mentor' are
exactly the records with status 'pending' and `isWeekday` true; for role
'warden' exactly those with (status 'pending' and `isWeekday` false) or status
'mentor_approved'; for every other role the answer is 403 and carries no
records; the call leaves the database as it was. -/
theorem C14_getPendingRequests (db : Database) (user : ReqUser) :
    (user.role = "mentor" →
      (getPendingRequests db user).1.status = 200 ∧
      (returnedPending (getPendingRequests db user).1).Perm
        (db.outpasses.filter (fun o => o.status == "pending" && o.isWeekday))) ∧
    (user.role = "warden" →
      (getPendingRequests db user).1.status = 200 ∧
      (returnedPending (getPendingRequests db user).1).Perm
        (db.outpasses.filter (fun o =>
          (o.status == "pending" && !o.isWeekday) || o.status == "mentor_approved"))) ∧
    ((user.role ≠ "mentor" ∧ user.role ≠ "warden") →
      (getPendingRequests db user).1.status = 403 ∧
      (getPendingRequests db user).1.data = none ∧
      returnedPending (getPendingRequests db user).1 = []) ∧
    (getPendingRequests db user).2 = db := by
  refine ⟨fun hrole => ?_, fun hrole => ?_, fun hrole => ?_, ?_⟩
  · rw [getPendingRequests_mentor db user hrole]
    refine ⟨rfl, ?_⟩
    rw [returnedPending_pendingRespond]
    exact JS.sort_perm _ _
  · rw [getPendingRequests_warden db user hrole]
    refine ⟨rfl, ?_⟩
    rw [returnedPending_pendingRespond]
    exact JS.sort_perm _ _
  · rw [getPendingRequests_other db user hrole.1 hrole.2]
    exact ⟨rfl, rfl, rfl⟩
  · by_cases hm : user.role = "mentor"
    · rw [getPendingRequests_mentor db user hm]
      rfl
    · by_cases hw : user.role = "warden"
      · rw [getPendingRequests_warden db user hw]
        rfl
      · rw [getPendingRequests_other db user hm hw]

/-- The scope of `getHistory` for a parent. -/
theorem historyScope_parent (db : Database) (user : ReqUser) (hrole : user.role = "parent") :
    historyScope db user = db.outpasses.filter (fun o => o.createdBy == user.id) := by
  simp [historyScope, hrole, getOutpassesByUser]

/-- The scope of `getHistory` for a mentor, a warden or an admin. -/
theorem historyScope_staff (db : Database) (user : ReqUser)
    (hrole : user.role = "mentor" ∨ user.role = "warden" ∨ user.role = "admin") :
    historyScope db user = db.outpasses := by
  have h1 : ¬ ("mentor" = "parent") := by decide
  have h2 : ¬ ("warden" = "parent") := by decide
  have h3 : ¬ ("admin" = "parent") := by decide
  rcases hrole with h | h | h <;> simp [historyScope, h, h1, h2, h3, getAllOutpasses]

/-- The scope of `getHistory` for any other role. -/
theorem historyScope_other (db : Database) (user : ReqUser)
    (hp : user.role ≠ "parent") (hm : user.role ≠ "mentor") (hw : user.role ≠ "warden")
    (ha : user.role ≠ "admin") : historyScope db user = [] := by
  simp [historyScope, hp, hm, hw, ha]

/-- C15: the records returned by `getHistory` are, for role 'parent', exactly the
records whose `createdBy` is the actor's id; for the roles 'mentor', 'warden'
and 'admin', every record of the database; for any other role, none. -/
theorem C15_getHistory (db : Database) (user : ReqUser) :
    (getHistory db user).1.status = 200 ∧
    (user.role = "parent" →
      (returnedHistory (getHistory db user).1).Perm
        (db.outpasses.filter (fun o => o.createdBy == user.id)) ∧
      ∀ o ∈ returnedHistory (getHistory db user).1, o.createdBy = user.id) ∧
    ((user.role = "mentor" ∨ user.role = "warden" ∨ user.role = "admin") →
      (returnedHistory (getHistory db user).1).Perm db.outpasses) ∧
    ((user.role ≠ "parent" ∧ user.role ≠ "mentor" ∧ user.role ≠ "warden" ∧
        user.role ≠ "admin") →
      returnedHistory (getHistory db user).1 = []) := by
  refine ⟨rfl, fun hrole => ?_, fun hrole => ?_, fun hrole => ?_⟩
  · have hperm : (returnedHistory (getHistory db user).1).Perm
        (db.outpasses.filter (fun o => o.createdBy == user.id)) := by
      rw [returnedHistory_getHistory, historyScope_parent db user hrole]
      exact JS.sort_perm _ _
    refine ⟨hperm, fun o ho => ?_⟩
    have hmem := hperm.subset ho
    simpa using (List.mem_filter.mp hmem).2
  · rw [returnedHistory_getHistory, historyScope_staff db user hrole]
    exact JS.sort_perm _ _
  · rw [returnedHistory_getHistory,
      historyScope_other db user hrole.1 hrole.2.1 hrole.2.2.1 hrole.2.2.2]
    rfl

/-- C14, at the seeded mentor and the four-record database. -/
theorem C14_getPendingRequests_witness :
    sampleMentor.role = "mentor" ∧
    (getPendingRequests queueDb sampleMentor).1.status = 200 ∧
    (returnedPending (getPendingRequests queueDb sampleMentor).1).Perm
      (queueDb.outpasses.filter (fun o => o.status == "pending" && o.isWeekday)) :=
  ⟨rfl, (C14_getPendingRequests queueDb sampleMentor).1 rfl⟩

/-- C15, at the seeded parent and the four-record database. -/
theorem C15_getHistory_witness :
    sampleParent.role = "parent" ∧
    (returnedHistory (getHistory queueDb sampleParent).1).Perm
      (queueDb.outpasses.filter (fun o => o.createdBy == sampleParent.id)) ∧
    ∀ o ∈ returnedHistory (getHistory queueDb sampleParent).1, o.createdBy = sampleParent.id :=
  ⟨rfl, (C15_getHistory queueDb sampleParent).2.1 rfl⟩

/-- C16: the list returned by `getHistory`, and by `getPendingRequests` for a
mentor or a warden, is a permutation of the selected records in which
`createdAt` never increases from first to last, and in which records of equal
`createdAt` keep the order they have in the database; the database itself is
left as it was. -/
theorem C16_most_recent_first (db : Database) (user : ReqUser) :
    MostRecentFirst (historyScope db user) (returnedHistory (getHistory db user).1) ∧
    (getHistory db user).2 = db ∧
    (user.role = "mentor" →
      MostRecentFirst (db.outpasses.filter (fun o => o.status == "pending" && o.isWeekday))
        (returnedPending (getPendingRequests db user).1)) ∧
    (user.role = "warden" →
      MostRecentFirst
        (db.outpasses.filter (fun o =>
          (o.status == "pending" && !o.isWeekday) || o.status == "mentor_approved"))
        (returnedPending (getPendingRequests db user).1)) ∧
    (getPendingRequests db user).2 = db := by
  refine ⟨?_, rfl, fun hrole => ?_, fun hrole => ?_, ?_⟩
  · rw [returnedHistory_getHistory]
    exact mostRecentFirst_sort _
  · rw [getPendingRequests_mentor db user hrole, returnedPending_pendingRespond]
    exact mostRecentFirst_sort _
  · rw [getPendingRequests_warden db user hrole, returnedPending_pendingRespond]
    exact mostRecentFirst_sort _
  · by_cases hm : user.role = "mentor"
    · rw [getPendingRequests_mentor db user hm]
      rfl
    · by_cases hw : user.role = "warden"
      · rw [getPendingRequests_warden db user hw]
        rfl
      · rw [getPendingRequests_other db user hm hw]

/-- C16, at the seeded warden and the four-record database, whose records 2 and
3 have the same creation instant: the queue is record 2, then record 3. -/
theorem C16_most_recent_first_witness :
    sampleWarden.role = "warden" ∧
    MostRecentFirst
      (queueDb.outpasses.filter (fun o =>
        (o.status == "pending" && !o.isWeekday) || o.status == "mentor_approved"))
      (returnedPending (getPendingRequests queueDb sampleWarden).1) ∧
    returnedPending (getPendingRequests queueDb sampleWarden).1 =
      [sampleRecord 2 false "pending" "5" 30, sampleRecord 3 true "mentor_approved" "4" 30] ∧
    (returnedHistory (getHistory queueDb sampleWarden).1).map (fun o => o.id) = [2, 3, 4, 1] :=
  ⟨rfl, (C16_most_recent_first queueDb sampleWarden).2.2.2.1 rfl, by decide, by decide⟩

/-- The count of the records approved by the mentor or by the warden is the sum
of the two counts. -/
theorem length_filter_approved (l : List Outpass) :
    (l.filter (fun op =>
      op.status == "mentor_approved" || op.status == "warden_approved")).length =
    (l.filter (fun op => op.status == "mentor_approved")).length +
      (l.filter (fun op => op.status == "warden_approved")).length := by
  induction l with
  | nil => rfl
  | cons o rest ih =>
    by_cases h1 : o.status = "mentor_approved"
    · have h2 : ¬ ("mentor_approved" = "warden_approved") := by decide
      simp [List.filter_cons, h1, h2, ih]
      omega
    · by_cases h2 : o.status = "warden_approved"
      · simp [List.filter_cons, h1, h2, ih]
        omega
      · simp [List.filter_cons, h1, h2, ih]

/-- C17: `getStatistics` counts over the records in scope (those created by the
actor for role 'parent', all records otherwise): `total` is their number;
`pending`, `rejected`, `mentor_approved` and `warden_approved` are the numbers
of those with that status; `approved` is `mentor_approved + warden_approved`.
For a scope of 10 records with 3 pending, 4 approved by the mentor or the
warden and 3 rejected it returns total 10, pending 3, approved 4, rejected 3. -/
theorem C17_getStatistics (db : Database) (user : ReqUser) :
    ∃ stats inScope, (getStatistics db user).1.status = 200 ∧
      (getStatistics db user).1.data = some stats ∧
      (user.role = "parent" →
        inScope = db.outpasses.filter (fun o => o.createdBy == user.id)) ∧
      (user.role ≠ "parent" → inScope = db.outpasses) ∧
      stats.total = inScope.length ∧
      stats.pending = (inScope.filter (fun o => o.status == "pending")).length ∧
      stats.rejected = (inScope.filter (fun o => o.status == "rejected")).length ∧
      stats.mentor_approved =
        (inScope.filter (fun o => o.status == "mentor_approved")).length ∧
      stats.warden_approved =
        (inScope.filter (fun o => o.status == "warden_approved")).length ∧
      stats.approved = stats.mentor_approved + stats.warden_approved ∧
      (inScope.length = 10 →
        (inScope.filter (fun o => o.status == "pending")).length = 3 →
        (inScope.filter (fun o => o.status == "mentor_approved")).length +
          (inScope.filter (fun o => o.status == "warden_approved")).length = 4 →
        (inScope.filter (fun o => o.status == "rejected")).length = 3 →
        stats.total = 10 ∧ stats.pending = 3 ∧ stats.approved = 4 ∧ stats.rejected = 3) := by
  refine ⟨_, statisticsScope db user, rfl, rfl, fun hrole => ?_, fun hrole => ?_,
    rfl, rfl, rfl, rfl, rfl, length_filter_approved _, fun h1 h2 h3 h4 => ?_⟩
  · simp [statisticsScope, hrole, getOutpassesByUser]
  · simp [statisticsScope, hrole, getAllOutpasses]
  · refine ⟨h1, h2, ?_, h4⟩
    show (List.filter _ (statisticsScope db user)).length = 4
    rw [length_filter_approved]
    exact h3

/-- Statistics of the ten-record database for the seeded admin, evaluated. -/
theorem statistics_of_ten_records :
    (getStatistics statisticsDb sampleAdmin).1.data =
      some { total := 10, pending := 3, approved := 4, rejected := 3
             mentor_approved := 2, warden_approved := 2 } := by
  decide

/-! ## Visibility and legality -/

/-- The mentor's queue holds the pending weekday records. -/
theorem returnedPending_mentor_perm (db : Database) (user : ReqUser)
    (hrole : user.role = "mentor") :
    (returnedPending (getPendingRequests db user).1).Perm
      (db.outpasses.filter (fun o => o.status == "pending" && o.isWeekday)) := by
  rw [getPendingRequests_mentor db user hrole, returnedPending_pendingRespond]
  exact JS.sort_perm _ _

/-- The warden's queue holds the pending weekend records and the records
approved by the mentor. -/
theorem returnedPending_warden_perm (db : Database) (user : ReqUser)
    (hrole : user.role = "warden") :
    (returnedPending (getPendingRequests db user).1).Perm
      (db.outpasses.filter (fun o =>
        (o.status == "pending" && !o.isWeekday) || o.status == "mentor_approved")) := by
  rw [getPendingRequests_warden db user hrole, returnedPending_pendingRespond]
  exact JS.sort_perm _ _

/-- With pairwise distinct ids, a request id that parses to the id of a record
of the database resolves to that record. -/
theorem findOutpassById_of_mem (db : Database) (id : String) (o : Outpass)
    (hdistinct : (recordIds db).Nodup) (hmem : o ∈ db.outpasses)
    (hid : JS.parseInt id = some o.id) : findOutpassById db id = some o := by
  have ho : idMatches id o = true := by simp [idMatches, hid]
  cases hfind : findOutpassById db id with
  | none =>
    unfold findOutpassById at hfind
    rw [List.find?_eq_none] at hfind
    exact absurd ho (hfind o hmem)
  | some x =>
    unfold findOutpassById at hfind
    have hx : idMatches id x = true := List.find?_some hfind
    have hxmem : x ∈ db.outpasses := List.mem_of_find?_eq_some hfind
    have hsame : x.id = o.id := by
      have h1 : JS.parseInt id = some x.id := by simpa [idMatches] using hx
      rw [hid] at h1
      exact (Option.some.inj h1).symm
    have : x = o := List.inj_on_of_nodup_map hdistinct hxmem hmem hsame
    rw [this]

/-- The mentor's approval of a found record is answered 200 exactly for (pending, weekday). -/
theorem approveOutpass_mentor_ok_iff (db : Database) (clock : Clock) (user : ReqUser)
    (id : String) (remarks : Option String) (o : Outpass)
    (hrole : user.role = "mentor") (hfind : findOutpassById db id = some o) :
    (approveOutpass db clock user id remarks).1.status = 200 ↔
      (o.status = "pending" ∧ o.isWeekday = true) := by
  obtain ⟨pre, post, hsplit, hpre, ho⟩ := findOutpassById_split hfind
  constructor
  · intro h200
    by_contra hno
    rw [approveOutpass_mentor_stop db clock user id remarks o hrole hfind hno] at h200
    simp [outpassController.failure] at h200
  · intro hok
    exact (approveOutpass_mentor_result db clock user id remarks pre o post
      hsplit hpre ho hrole hok.1 hok.2).1

/-- The warden's approval of a found record is answered 200 exactly when the
record is not terminal and, if a weekday record, approved by the mentor. -/
theorem approveOutpass_warden_ok_iff (db : Database) (clock : Clock) (user : ReqUser)
    (id : String) (remarks : Option String) (o : Outpass)
    (hrole : user.role = "warden") (hfind : findOutpassById db id = some o) :
    (approveOutpass db clock user id remarks).1.status = 200 ↔
      (o.status ≠ "warden_approved" ∧ o.status ≠ "rejected" ∧
        (o.isWeekday = true → o.status = "mentor_approved")) := by
  obtain ⟨pre, post, hsplit, hpre, ho⟩ := findOutpassById_split hfind
  constructor
  · intro h200
    by_contra hno
    have hstop : o.status = "warden_approved" ∨ o.status = "rejected" ∨
        (o.isWeekday = true ∧ o.status ≠ "mentor_approved") := by
      by_contra hs
      apply hno
      refine ⟨fun h => hs (Or.inl h), fun h => hs (Or.inr (Or.inl h)), fun hd => ?_⟩
      by_contra hm
      exact hs (Or.inr (Or.inr ⟨hd, hm⟩))
    rw [(approveOutpass_warden_stop db clock user id remarks o hrole hfind hstop).1] at h200
    exact absurd h200 (by decide)
  · intro hok
    exact (approveOutpass_warden_result db clock user id remarks pre o post
      hsplit hpre ho hrole hok.1 hok.2.1 hok.2.2).1

/-- C18: visibility agrees with legality. In a database whose record ids are
pairwise distinct and whose records carry one of the four statuses, for the
roles mentor and warden, a record of the database appears in the list returned
by `getPendingRequests` for the role if and only if `approveOutpass` called with
the role on a request id that parses to the record's id is answered 200. -/
theorem C18_visibility_agrees_with_legality (db : Database) (clock : Clock)
    (mentor warden : ReqUser) (id : String) (remarks : Option String) (o : Outpass)
    (hdistinct : (recordIds db).Nodup) (hvalid : ∀ x ∈ db.outpasses, IsStatus x.status)
    (hmentor : mentor.role = "mentor") (hwarden : warden.role = "warden")
    (hmem : o ∈ db.outpasses) (hid : JS.parseInt id = some o.id) :
    (o ∈ returnedPending (getPendingRequests db mentor).1 ↔
      (approveOutpass db clock mentor id remarks).1.status = 200) ∧
    (o ∈ returnedPending (getPendingRequests db warden).1 ↔
      (approveOutpass db clock warden id remarks).1.status = 200) := by
  have hfind := findOutpassById_of_mem db id o hdistinct hmem hid
  constructor
  · rw [approveOutpass_mentor_ok_iff db clock mentor id remarks o hmentor hfind,
      ((returnedPending_mentor_perm db mentor hmentor).mem_iff)]
    simp [List.mem_filter, hmem]
  · rw [approveOutpass_warden_ok_iff db clock warden id remarks o hwarden hfind,
      ((returnedPending_warden_perm db warden hwarden).mem_iff)]
    simp only [List.mem_filter, hmem, true_and, Bool.or_eq_true, Bool.and_eq_true,
      beq_iff_eq, Bool.not_eq_true']
    rcases hvalid o hmem with hs | hs | hs | hs
    · cases hd : o.isWeekday <;> simp [hs, hd]
    · simp [hs]
    · simp [hs]
    · simp [hs]

/-- C18, at record 1 of the four-record database (pending, weekday): the mentor
sees it and may approve it, the warden neither. -/
theorem C18_visibility_agrees_with_legality_witness :
    (recordIds queueDb).Nodup ∧ (∀ x ∈ queueDb.outpasses, IsStatus x.status) ∧
    sampleMentor.role = "mentor" ∧ sampleWarden.role = "warden" ∧
    sampleRecord 1 true "pending" "4" 10 ∈ queueDb.outpasses ∧
    JS.parseInt "1" = some (sampleRecord 1 true "pending" "4" 10).id ∧
    ((sampleRecord 1 true "pending" "4" 10 ∈
        returnedPending (getPendingRequests queueDb sampleMentor).1 ↔
      (approveOutpass queueDb sampleClock sampleMentor "1" none).1.status = 200) ∧
    (sampleRecord 1 true "pending" "4" 10 ∈
        returnedPending (getPendingRequests queueDb sampleWarden).1 ↔
      (approveOutpass queueDb sampleClock sampleWarden "1" none).1.status = 200)) :=
  ⟨by decide, by simp [queueDb, sampleRecord, IsStatus], rfl, rfl, by decide, by decide,
    C18_visibility_agrees_with_legality queueDb sampleClock sampleMentor sampleWarden "1" none
      (sampleRecord 1 true "pending" "4" 10) (by decide)
      (by simp [queueDb, sampleRecord, IsStatus]) rfl rfl (by decide) (by decide)⟩

/-! ## Status and audit trail -/

/-- A write of a handler keeps the agreement of status and audit trail. -/
theorem written_statusMatchesSlots {user : ReqUser} {clock : Clock}
    {remarks : Option String} {o o1 : Outpass} (h : Written user clock remarks o o1)
    (hinv : StatusMatchesSlots o) : StatusMatchesSlots o1 := by
  obtain ⟨hp, hm, hw, hr, hs⟩ := hinv
  cases h with
  | byMentor _ hpend hday =>
    refine ⟨fun h => ?_, fun _ => ⟨hday, rfl⟩, fun h => ?_, fun h => ?_,
      Or.inr (Or.inl rfl)⟩
    · simp [mentorApproved, wardenApproved, rejected] at h
    · simp [mentorApproved, wardenApproved, rejected] at h
    · simp [mentorApproved, wardenApproved, rejected] at h
  | byWarden _ h1 h2 h3 =>
    refine ⟨fun h => ?_, fun h => ?_, fun _ => ⟨rfl, ?_⟩, fun h => ?_,
      Or.inr (Or.inr (Or.inl rfl))⟩
    · simp [mentorApproved, wardenApproved, rejected] at h
    · simp [mentorApproved, wardenApproved, rejected] at h
    · show o.approvedByMentor.isSome ↔ o.isWeekday = true
      rcases hs with hs | hs | hs | hs
      · have hnone := (hp hs).1
        constructor
        · intro hset
          rw [hnone] at hset
          exact absurd hset (by decide)
        · intro hd
          have := h3 hd
          rw [hs] at this
          exact absurd this (by decide)
      · exact ⟨fun _ => (hm hs).1, fun _ => (hm hs).2⟩
      · exact absurd hs h1
      · exact absurd hs h2
    · simp [mentorApproved, wardenApproved, rejected] at h
  | byReject _ _ _ =>
    refine ⟨fun h => ?_, fun h => ?_, fun h => ?_, fun _ => rfl, Or.inr (Or.inr (Or.inr rfl))⟩
    · simp [mentorApproved, wardenApproved, rejected] at h
    · simp [mentorApproved, wardenApproved, rejected] at h
    · simp [mentorApproved, wardenApproved, rejected] at h

/-- A record with status 'pending' and no decision slot satisfies the agreement. -/
theorem statusMatchesSlots_new (o : Outpass) (hs : o.status = "pending")
    (hm : o.approvedByMentor = none) (hw : o.approvedByWarden = none)
    (hr : o.rejectedBy = none) : StatusMatchesSlots o := by
  refine ⟨fun _ => ⟨hm, hw, hr⟩, fun h => ?_, fun h => ?_, fun h => ?_, Or.inl hs⟩
  · rw [hs] at h
    exact absurd h (by decide)
  · rw [hs] at h
    exact absurd h (by decide)
  · rw [hs] at h
    exact absurd h (by decide)

/-- C19: status and audit trail stay consistent. In every database reachable
from the empty one by `createOutpass`, `approveOutpass` and `rejectOutpass`
calls, every record satisfies: status 'pending' implies no decision slot is
set; 'mentor_approved' implies `isWeekday` and `approvedByMentor` set;
'warden_approved' implies `approvedByWarden` set, and `approvedByMentor` set
exactly when `isWeekday`; 'rejected' implies `rejectedBy` set; and the status
is one of these four values. -/
theorem C19_status_matches_audit_trail (helper : DateHelper) (db : Database)
    (hreach : Reachable helper db) : ∀ o ∈ db.outpasses, StatusMatchesSlots o := by
  induction hreach with
  | init users =>
    intro o ho
    simp at ho
  | create clock user body _ ih =>
    rcases createOutpass_effect helper _ clock user body with hdb |
      ⟨o1, _, hs, hm, hw, hr, hdb⟩
    · rw [hdb]
      exact ih
    · rw [hdb]
      intro o ho
      simp only [List.mem_append, List.mem_singleton] at ho
      rcases ho with ho | ho
      · exact ih o ho
      · subst ho
        exact statusMatchesSlots_new o hs hm hw hr
  | approve clock user id remarks _ ih =>
    rcases approveOutpass_effect _ clock user id remarks with ⟨hdb, _⟩ |
      ⟨pre, o, post, o1, hsplit, _, _, hw, _, hdb⟩
    · rw [hdb]
      exact ih
    · rw [hdb]
      rw [hsplit] at ih
      intro x hx
      simp only [List.mem_append, List.mem_cons] at hx
      rcases hx with hx | hx | hx
      · exact ih x (by simp [hx])
      · subst hx
        exact written_statusMatchesSlots hw (ih o (by simp))
      · exact ih x (by simp [hx])
  | reject clock user id remarks _ ih =>
    rcases rejectOutpass_effect _ clock user id remarks with ⟨hdb, _⟩ |
      ⟨pre, o, post, hsplit, _, _, hw, hdb, _⟩
    · rw [hdb]
      exact ih
    · rw [hdb]
      rw [hsplit] at ih
      intro x hx
      simp only [List.mem_append, List.mem_cons] at hx
      rcases hx with hx | hx | hx
      · exact ih x (by simp [hx])
      · subst hx
        exact written_statusMatchesSlots hw (ih o (by simp))
      · exact ih x (by simp [hx])

/-- C19, at the database in which record 1 carries the mentor's decision. -/
theorem C19_status_matches_audit_trail_witness :
    Reachable sampleHelper afterMentorApproval ∧
    ∀ o ∈ afterMentorApproval.outpasses, StatusMatchesSlots o :=
  ⟨Reachable.approve sampleClock sampleMentor "1" (some "ok")
      (Reachable.create sampleClock sampleParent sampleBody (Reachable.init seedUsers)),
    C19_status_matches_audit_trail sampleHelper afterMentorApproval
      (Reachable.approve sampleClock sampleMentor "1" (some "ok")
        (Reachable.create sampleClock sampleParent sampleBody (Reachable.init seedUsers)))⟩

/-! ## Submission -/

/-- The record `createOutpass` stores for a body that passes validation. -/
theorem createOutpass_passes (helper : DateHelper) (db : Database) (clock : Clock)
    (user : ReqUser) (body : CreateBody)
    (studentName guardianName guardianNumber outDate inDate : String)
    (h : PassesValidation helper body studentName guardianName guardianNumber outDate inDate) :
    (outpassController.createOutpass helper db clock user body).2 =
      { db with
        outpasses := db.outpasses ++
          [{ id := db.nextOutpassId
             studentName := studentName
             studentId := body.studentId
             guardianName := guardianName
             guardianNumber := guardianNumber
             outDate := helper.newDate outDate
             inDate := helper.newDate inDate
             reason := JS.orElse body.reason "Personal"
             isWeekday := helper.isWeekday outDate
             status := "pending"
             createdBy := user.id
             createdAt := clock.first
             updatedAt := clock.second
             approvedByMentor := none
             approvedByWarden := none
             rejectedBy := none }]
        nextOutpassId := db.nextOutpassId + 1 } ∧
    ((findUserById db user.id).isSome →
      (outpassController.createOutpass helper db clock user body).1.status = 201) ∧
    (findUserById db user.id = none →
      (outpassController.createOutpass helper db clock user body).1.status = 500) := by
  obtain ⟨h1, h1', h2, h2', h3, h3', h4, h4', h5, h5', h6, h7, h8⟩ := h
  cases hu : findUserById db user.id with
  | none =>
    have hu1 : List.find? (fun u => u.id == user.id) db.users = none := hu
    simp [outpassController.createOutpass, database.createOutpass, JS.truthy, h1, h2, h3, h4, h5,
      h1', h2', h3', h4', h5', h6, h7, h8, findUserById, hu1, outpassController.failure]
  | some u =>
    have hu1 : List.find? (fun u => u.id == user.id) db.users = some u := hu
    simp [outpassController.createOutpass, database.createOutpass, JS.truthy, h1, h2, h3, h4, h5,
      h1', h2', h3', h4', h5', h6, h7, h8, findUserById, hu1]

/-- C11: a submission that fails validation creates nothing. For every database
and every request body in which studentName, guardianName, guardianNumber,
outDate or inDate is missing or empty, or a date fails the validity check, or
the date-range check refuses the pair, `createOutpass` responds 400 and the
record list and the next-id counter are unchanged. -/
theorem C11_failed_validation_creates_nothing (helper : DateHelper) (db : Database)
    (clock : Clock) (user : ReqUser) (body : CreateBody)
    (hbad : FailsValidation helper body) :
    (outpassController.createOutpass helper db clock user body).1.status = 400 ∧
    (outpassController.createOutpass helper db clock user body).2.outpasses = db.outpasses ∧
    (outpassController.createOutpass helper db clock user body).2.nextOutpassId =
      db.nextOutpassId := by
  have key : (outpassController.createOutpass helper db clock user body).1.status = 400 ∧
      (outpassController.createOutpass helper db clock user body).2 = db := by
    unfold outpassController.createOutpass
    split
    · exact ⟨rfl, rfl⟩
    · rename_i hreq
      simp only []
      split
      · exact ⟨rfl, rfl⟩
      · rename_i hvalid
        split
        · exact ⟨rfl, rfl⟩
        · rename_i hrange
          exfalso
          simp only [Bool.or_eq_true, Bool.not_eq_true', not_or, Bool.not_eq_false] at hreq hvalid hrange
          obtain ⟨⟨⟨⟨t1, t2⟩, t3⟩, t4⟩, t5⟩ := hreq
          rcases hbad with h | h | h | h | h | ⟨d, hd, h⟩ | ⟨d, hd, h⟩ | ⟨d1, d2, hd1, hd2, h⟩
          · rw [t1] at h; exact absurd h (by decide)
          · rw [t2] at h; exact absurd h (by decide)
          · rw [t3] at h; exact absurd h (by decide)
          · rw [t4] at h; exact absurd h (by decide)
          · rw [t5] at h; exact absurd h (by decide)
          · rw [hd, Option.getD_some, h] at hvalid
            exact absurd hvalid.1 (by decide)
          · rw [hd, Option.getD_some, h] at hvalid
            exact absurd hvalid.2 (by decide)
          · rw [hd1, hd2, Option.getD_some, Option.getD_some, h] at hrange
            exact absurd hrange (by decide)
  exact ⟨key.1, by rw [key.2], by rw [key.2]⟩

/-- C11, at a body whose `inDate` is missing. -/
theorem C11_failed_validation_creates_nothing_witness :
    FailsValidation sampleHelper { sampleBody with inDate := none } ∧
    ((outpassController.createOutpass sampleHelper initialDb sampleClock sampleParent
        { sampleBody with inDate := none }).1.status = 400 ∧
    (outpassController.createOutpass sampleHelper initialDb sampleClock sampleParent
        { sampleBody with inDate := none }).2.outpasses = initialDb.outpasses ∧
    (outpassController.createOutpass sampleHelper initialDb sampleClock sampleParent
        { sampleBody with inDate := none }).2.nextOutpassId = initialDb.nextOutpassId) :=
  ⟨Or.inr (Or.inr (Or.inr (Or.inr (Or.inl rfl)))),
    C11_failed_validation_creates_nothing sampleHelper initialDb sampleClock sampleParent
      { sampleBody with inDate := none } (Or.inr (Or.inr (Or.inr (Or.inr (Or.inl rfl)))))⟩

/-- C12, as stated, fails for a reason that is supplied empty: the body passes
validation and carries the reason "", and the record stored has the reason
'Personal', not the supplied one. -/
theorem C12_blank_reason_is_replaced :
    PassesValidation sampleHelper blankReasonBody "Student Name" "Parent User" "9876543210"
      "2024-01-01" "2024-01-02" ∧
    blankReasonBody.reason = some "" ∧
    (outpassController.createOutpass sampleHelper initialDb sampleClock sampleParent
      blankReasonBody).2.outpasses.map (fun o => o.reason) = ["Personal"] ∧
    ¬ ((outpassController.createOutpass sampleHelper initialDb sampleClock sampleParent
      blankReasonBody).2.outpasses.map (fun o => some o.reason) = [blankReasonBody.reason]) := by
  unfold PassesValidation
  decide

/-- C12, amended: for every database and every request body that passes
validation, `createOutpass` appends exactly one record at the end of the record
list and leaves the existing records unchanged; the new record has status
'pending', `isWeekday` equal to the classification of its outDate, `createdBy`
equal to the requesting actor's id, id equal to the previous next-id counter,
reason equal to the supplied reason, or 'Personal' when the reason is omitted or
empty, and none of the three decision slots set. -/
theorem C12_valid_submission_appends_one_record (helper : DateHelper) (db : Database)
    (clock : Clock) (user : ReqUser) (body : CreateBody)
    (studentName guardianName guardianNumber outDate inDate : String)
    (h : PassesValidation helper body studentName guardianName guardianNumber outDate inDate) :
    ∃ o : Outpass,
      (outpassController.createOutpass helper db clock user body).2.outpasses =
        db.outpasses ++ [o] ∧
      o.status = "pending" ∧ o.isWeekday = helper.isWeekday outDate ∧
      o.createdBy = user.id ∧ o.id = db.nextOutpassId ∧
      ((body.reason = none ∨ body.reason = some "") → o.reason = "Personal") ∧
      (∀ s, body.reason = some s → s ≠ "" → o.reason = s) ∧
      o.approvedByMentor = none ∧ o.approvedByWarden = none ∧ o.rejectedBy = none := by
  obtain ⟨hdb, _, _⟩ := createOutpass_passes helper db clock user body studentName guardianName
    guardianNumber outDate inDate h
  refine ⟨_, by rw [hdb], rfl, rfl, rfl, rfl, ?_, ?_, rfl, rfl, rfl⟩
  · intro hr
    rcases hr with hr | hr <;> simp [hr, JS.orElse]
  · intro s hs hne
    simp [hs, JS.orElse, hne]

/-- C12 amended, at the seeded parent submitting `sampleBody` to the initial database. -/
theorem C12_valid_submission_appends_one_record_witness :
    PassesValidation sampleHelper sampleBody "Student Name" "Parent User" "9876543210"
      "2024-01-01" "2024-01-02" ∧
    ∃ o : Outpass,
      (outpassController.createOutpass sampleHelper initialDb sampleClock sampleParent
        sampleBody).2.outpasses = initialDb.outpasses ++ [o] ∧
      o.status = "pending" ∧ o.isWeekday = sampleHelper.isWeekday "2024-01-01" ∧
      o.createdBy = sampleParent.id ∧ o.id = initialDb.nextOutpassId ∧
      ((sampleBody.reason = none ∨ sampleBody.reason = some "") → o.reason = "Personal") ∧
      (∀ s, sampleBody.reason = some s → s ≠ "" → o.reason = s) ∧
      o.approvedByMentor = none ∧ o.approvedByWarden = none ∧ o.rejectedBy = none :=
  ⟨by unfold PassesValidation; decide,
    C12_valid_submission_appends_one_record sampleHelper initialDb sampleClock sampleParent
      sampleBody "Student Name" "Parent User" "9876543210" "2024-01-01" "2024-01-02"
      (by unfold PassesValidation; decide)⟩

/-- C20: the claim is that a response other than 201 leaves the record list and
the counter as they were. For a requesting actor whose id is not in the users
table, `createOutpass` stores the record and then fails while it builds the
response: the answer is 500, the list has one record more and the counter has
moved from 1 to 2. -/
theorem C20_create_fails_after_the_write :
    findUserById initialDb unknownParent.id = none ∧
    (outpassController.createOutpass sampleHelper initialDb sampleClock unknownParent
      sampleBody).1.status = 500 ∧
    initialDb.outpasses.length = 0 ∧
    (outpassController.createOutpass sampleHelper initialDb sampleClock unknownParent
      sampleBody).2.outpasses.length = 1 ∧
    initialDb.nextOutpassId = 1 ∧
    (outpassController.createOutpass sampleHelper initialDb sampleClock unknownParent
      sampleBody).2.nextOutpassId = 2 := by
  decide

/-! ## Record ids -/

/-- The handler `approveOutpass` changes neither the ids nor the counter. -/
theorem approveOutpass_recordIds (db : Database) (clock : Clock) (user : ReqUser)
    (id : String) (remarks : Option String) :
    recordIds (approveOutpass db clock user id remarks).2 = recordIds db ∧
    (approveOutpass db clock user id remarks).2.nextOutpassId = db.nextOutpassId := by
  rcases approveOutpass_effect db clock user id remarks with ⟨hdb, _⟩ |
    ⟨pre, o, post, o1, hsplit, _, _, hw, _, hdb⟩
  · rw [hdb]
    exact ⟨rfl, rfl⟩
  · rw [hdb]
    refine ⟨?_, rfl⟩
    have hid : o1.id = o.id := (written_sameCreationFields hw).1
    simp [recordIds, hsplit, hid]

/-- The handler `rejectOutpass` changes neither the ids nor the counter. -/
theorem rejectOutpass_recordIds (db : Database) (clock : Clock) (user : ReqUser)
    (id : String) (remarks : Option String) :
    recordIds (rejectOutpass db clock user id remarks).2 = recordIds db ∧
    (rejectOutpass db clock user id remarks).2.nextOutpassId = db.nextOutpassId := by
  rcases rejectOutpass_effect db clock user id remarks with ⟨hdb, _⟩ |
    ⟨pre, o, post, hsplit, _, _, hw, hdb, _⟩
  · rw [hdb]
    exact ⟨rfl, rfl⟩
  · rw [hdb]
    refine ⟨?_, rfl⟩
    have hid : (rejected o user clock remarks).id = o.id := (written_sameCreationFields hw).1
    simp [recordIds, hsplit, hid]

/-- The handler `createOutpass` leaves ids and counter as they were, or adds the
counter as the last id and increments the counter. -/
theorem createOutpass_recordIds (helper : DateHelper) (db : Database) (clock : Clock)
    (user : ReqUser) (body : CreateBody) :
    (recordIds (outpassController.createOutpass helper db clock user body).2 = recordIds db ∧
      (outpassController.createOutpass helper db clock user body).2.nextOutpassId =
        db.nextOutpassId) ∨
    (recordIds (outpassController.createOutpass helper db clock user body).2 =
        recordIds db ++ [db.nextOutpassId] ∧
      (outpassController.createOutpass helper db clock user body).2.nextOutpassId =
        db.nextOutpassId + 1) := by
  rcases createOutpass_effect helper db clock user body with hdb | ⟨o, hid, _, _, _, _, hdb⟩
  · left
    rw [hdb]
    exact ⟨rfl, rfl⟩
  · right
    rw [hdb]
    refine ⟨?_, rfl⟩
    simp [recordIds, hid]

/-- In a reachable database the ids increase strictly in insertion order and
are all below the counter. -/
theorem reachable_idsIncreasing {helper : DateHelper} {db : Database}
    (h : Reachable helper db) : IdsIncreasing db := by
  induction h with
  | init users => exact ⟨List.Pairwise.nil, fun i hi => by simp [recordIds] at hi⟩
  | @create db0 clock user body _ ih =>
    obtain ⟨hpair, hbelow⟩ := ih
    rcases createOutpass_recordIds helper db0 clock user body with ⟨hids, hnext⟩ | ⟨hids, hnext⟩
    · unfold IdsIncreasing
      rw [hids, hnext]
      exact ⟨hpair, hbelow⟩
    · unfold IdsIncreasing
      rw [hids, hnext]
      constructor
      · rw [List.pairwise_append]
        refine ⟨hpair, List.pairwise_singleton _ _, fun a ha b hb => ?_⟩
        rw [List.mem_singleton.mp hb]
        exact hbelow a ha
      · intro i hi
        rcases List.mem_append.mp hi with hi | hi
        · have := hbelow i hi
          omega
        · rw [List.mem_singleton.mp hi]
          omega
  | @approve db0 clock user id remarks _ ih =>
    obtain ⟨hids, hnext⟩ := approveOutpass_recordIds db0 clock user id remarks
    unfold IdsIncreasing
    rw [hids, hnext]
    exact ih
  | @reject db0 clock user id remarks _ ih =>
    obtain ⟨hids, hnext⟩ := rejectOutpass_recordIds db0 clock user id remarks
    unfold IdsIncreasing
    rw [hids, hnext]
    exact ih

/-- C13: record ids are unique and monotonically assigned. In every database
reachable from the empty one by `createOutpass`, `approveOutpass` and
`rejectOutpass` calls, the ids of the records are pairwise distinct, strictly
increasing in insertion order and all strictly smaller than the next-id
counter; and a further call of any of the three handlers leaves the id of every
existing record as it was (`createOutpass` can only add ids after them). -/
theorem C13_ids_unique_and_increasing (helper : DateHelper) (db : Database)
    (hreach : Reachable helper db) (clock : Clock) (user : ReqUser) (id : String)
    (remarks : Option String) (body : CreateBody) :
    (recordIds db).Nodup ∧
    (recordIds db).Pairwise (fun a b => a < b) ∧
    (∀ i ∈ recordIds db, i < db.nextOutpassId) ∧
    recordIds (approveOutpass db clock user id remarks).2 = recordIds db ∧
    recordIds (rejectOutpass db clock user id remarks).2 = recordIds db ∧
    ∃ added, recordIds (outpassController.createOutpass helper db clock user body).2 =
      recordIds db ++ added := by
  obtain ⟨hpair, hbelow⟩ := reachable_idsIncreasing hreach
  refine ⟨?_, hpair, hbelow, (approveOutpass_recordIds db clock user id remarks).1,
    (rejectOutpass_recordIds db clock user id remarks).1, ?_⟩
  · exact hpair.imp (fun h => ne_of_lt h)
  · rcases createOutpass_recordIds helper db clock user body with ⟨hids, _⟩ | ⟨hids, _⟩
    · exact ⟨[], by rw [hids]; simp⟩
    · exact ⟨[db.nextOutpassId], hids⟩

/-- C13, at the database reached by one submission and the mentor's approval. -/
theorem C13_ids_unique_and_increasing_witness :
    Reachable sampleHelper afterMentorApproval ∧
    ((recordIds afterMentorApproval).Nodup ∧
    (recordIds afterMentorApproval).Pairwise (fun a b => a < b) ∧
    (∀ i ∈ recordIds afterMentorApproval, i < afterMentorApproval.nextOutpassId) ∧
    recordIds (approveOutpass afterMentorApproval sampleClock sampleWarden "1" none).2 =
      recordIds afterMentorApproval ∧
    recordIds (rejectOutpass afterMentorApproval sampleClock sampleWarden "1" none).2 =
      recordIds afterMentorApproval ∧
    ∃ added, recordIds (outpassController.createOutpass sampleHelper afterMentorApproval
        sampleClock sampleParent sampleBody).2 = recordIds afterMentorApproval ++ added) :=
  ⟨Reachable.approve sampleClock sampleMentor "1" (some "ok")
      (Reachable.create sampleClock sampleParent sampleBody (Reachable.init seedUsers)),
    C13_ids_unique_and_increasing sampleHelper afterMentorApproval
      (Reachable.approve sampleClock sampleMentor "1" (some "ok")
        (Reachable.create sampleClock sampleParent sampleBody (Reachable.init seedUsers)))
      sampleClock sampleWarden "1" none sampleBody⟩
